import Mathlib

/-!
Verification of the manufacturing execution tracking application.

Part A embeds the serial-number allocator of `serials/services.py`
(`SerialNumberGenerator`, `SerialNumberValidator`).  Strings are embedded as
lists of character codes (`List Nat`), so that Python's lexicographic string
order (`order_by serial_number`) and its regular-expression matches can be
modelled exactly.  Regular-expression prefixes are treated as literal
character sequences; all prefixes produced by the supported year letters
K..Z and month letters A..L consist of plain letters, for which this is
exact.

Part B embeds the process state machine: `ManufacturingProcessService`
(`manufacturing/services.py`), the operator endpoints
(`manufacturing/views_operator.py`) and the defect-resolution endpoint
(`defects/views.py`).  The signal receivers in `manufacturing/signals.py`
are never connected in this repository (no app configuration imports that
module), so record saves do not trigger them; the embedded transitions
therefore consist exactly of the statements executed by the service and the
view bodies.  Django's `transaction.atomic` blocks are modelled by returning
`Except`: on error the pre-state is kept, matching rollback.
-/

namespace Mfg

/-! ## Part A: serial-number allocator (serials/services.py) -/

/-- Errors raised by the allocator (`ValueError` sites in the source). -/
inductive AllocErr where
  | yearTooSmall
  | yearTooLarge
  | invalidMonth
  | partNotAuthorized
  | exhausted
deriving DecidableEq, Repr

/-- `SerialNumberGenerator.get_year_letter`: K = 2025, one letter per year,
at most offset 25.  Character codes: 75 = K. -/
def getYearLetter (year : Nat) : Except AllocErr Nat :=
  if year < 2025 then .error .yearTooSmall
  else if year - 2025 > 25 then .error .yearTooLarge
  else .ok (75 + (year - 2025))

/-- `SerialNumberGenerator.get_month_letter`: A = January.  65 = A. -/
def getMonthLetter (month : Nat) : Except AllocErr Nat :=
  if month < 1 || month > 12 then .error .invalidMonth
  else .ok (65 + month - 1)

/-- Python `f"\x7bn:03d\x7d"` for `n ≤ 999`: three decimal digits, zero padded
(codes 48..57). -/
def pad3 (n : Nat) : List Nat :=
  [48 + n / 100, 48 + n / 10 % 10, 48 + n % 10]

/-- The serial-number layout `[YEAR][MONTH]###-###M`: bucket prefix, two
3-digit counters, separator 45 = '-', suffix 77 = M. -/
def fmtSerial (pfx : List Nat) (f s : Nat) : List Nat :=
  pfx ++ pad3 f ++ 45 :: (pad3 s ++ [77])

def isDigit (c : Nat) : Bool := 48 ≤ c && c ≤ 57

def digitsVal (a b c : Nat) : Nat := 100 * (a - 48) + 10 * (b - 48) + (c - 48)

/-- Match a regex group `(\d\x7b3\x7d)`: exactly three digit characters. -/
def parse3 : List Nat → Option (Nat × List Nat)
  | a :: b :: c :: rest =>
      if isDigit a && isDigit b && isDigit c then some (digitsVal a b c, rest) else none
  | _ => none

/-- After both groups: require the literal `M` (code 77); trailing
characters are allowed, as with `re.match` without `$`. -/
def mcFinish (f : Nat) : Option (Nat × List Nat) → Option (Nat × Nat)
  | some (s, 77 :: _) => some (f, s)
  | _ => none

/-- After the first group: require the literal `-` (code 45), then the
second `(\d\x7b3\x7d)` group. -/
def mcDash (f : Nat) : List Nat → Option (Nat × Nat)
  | 45 :: rest2 => mcFinish f (parse3 rest2)
  | _ => none

def mcStart : Option (Nat × List Nat) → Option (Nat × Nat)
  | some (f, rest) => mcDash f rest
  | none => none

/-- Match `(\d\x7b3\x7d)-(\d\x7b3\x7d)M` at the head of the list. -/
def matchCounters (l : List Nat) : Option (Nat × Nat) :=
  mcStart (parse3 l)

/-- `re.match(f'\x7bprefix\x7d(\d\x7b3\x7d)-(\d\x7b3\x7d)M', s)` with the
prefix taken literally. -/
def reMatchCounters (pfx l : List Nat) : Option (Nat × Nat) :=
  if pfx.isPrefixOf l then matchCounters (l.drop pfx.length) else none

/-- Python string `<` on equal alphabets: lexicographic order on code lists. -/
def lexLt : List Nat → List Nat → Bool
  | _, [] => false
  | [], _ :: _ => true
  | a :: as, b :: bs => if a < b then true else if b < a then false else lexLt as bs

/-- One step of the max-scan: keep the lexicographically larger serial. -/
def maxStep (acc : Option (List Nat)) (x : List Nat) : Option (List Nat) :=
  match acc with
  | none => some x
  | some m => if lexLt m x then some x else some m

/-- `SerialNumber.objects.filter(serial_number__startswith=prefix)
.order_by('-serial_number').first()`: the lexicographically greatest stored
serial with the given bucket prefix. -/
def dbMaxSerial (pfx : List Nat) (store : List (List Nat)) : Option (List Nat) :=
  (store.filter (fun s => pfx.isPrefixOf s)).foldl maxStep none

/-- Counter step of `generate_serial_number` (lines 55-77): increment the
second counter, carry into the first when the second has reached 999, fail
when the first would exceed 999; when the greatest serial did not match the
pattern, fall back to counters (1, 1). -/
def genCont (pfx : List Nat) (store : List (List Nat)) :
    Option (Nat × Nat) → Except AllocErr (List Nat × List (List Nat))
  | some (f, s) =>
      if s < 999 then
        let ser := fmtSerial pfx f (s + 1)
        .ok (ser, ser :: store)
      else
        if f + 1 > 999 then .error .exhausted
        else
          let ser := fmtSerial pfx (f + 1) 1
          .ok (ser, ser :: store)
  | none =>
      let ser := fmtSerial pfx 1 1
      .ok (ser, ser :: store)

/-- Scan step: no serial with the bucket prefix starts both counters at 1;
otherwise the counters of the greatest serial are parsed and incremented. -/
def genScan (pfx : List Nat) (store : List (List Nat)) :
    Option (List Nat) → Except AllocErr (List Nat × List (List Nat))
  | none =>
      let ser := fmtSerial pfx 1 1
      .ok (ser, ser :: store)
  | some last => genCont pfx store (reMatchCounters pfx last)

/-- Core of `SerialNumberGenerator.generate_serial_number` (lines 49-91),
after the bucket prefix has been derived: max-scan the bucket, parse the two
counters of the greatest serial, increment, then store the new code.  The
store is the list of existing serial-number strings. -/
def genPfx (pfx : List Nat) (store : List (List Nat)) :
    Except AllocErr (List Nat × List (List Nat)) :=
  genScan pfx store (dbMaxSerial pfx store)

/-- `SerialNumberGenerator.generate_serial_number`: authorized-part lookup,
bucket prefix from the wall-clock year and month, then the counter logic.
`parts` is the `AuthorizedPart` catalog as (part number, is_active) pairs. -/
def generateSerialNumber (year month : Nat) (partNumber : String)
    (parts : List (String × Bool)) (store : List (List Nat)) :
    Except AllocErr (List Nat × List (List Nat)) :=
  match parts.find? (fun p => p.1 == partNumber && p.2) with
  | none => .error .partNotAuthorized
  | some _ =>
    match getYearLetter year with
    | .error e => .error e
    | .ok yl =>
      match getMonthLetter month with
      | .error e => .error e
      | .ok ml => genPfx [yl, ml] store

/-- `SerialNumberValidator.validate_serial_format`: the anchored regex
`^[K-Z][A-L]\d\x7b3\x7d-\d\x7b3\x7dM$`.  75..90 = K..Z, 65..76 = A..L. -/
def validateSerialFormat (s : List Nat) : Bool :=
  match s with
  | [c0, c1, a, b, c, h, d, e, f, m] =>
      (75 ≤ c0 && c0 ≤ 90) && (65 ≤ c1 && c1 ≤ 76) &&
      isDigit a && isDigit b && isDigit c && h == 45 &&
      isDigit d && isDigit e && isDigit f && m == 77
  | _ => false

structure SerialInfo where
  year : Nat
  month : Nat
  firstSeq : Nat
  secondSeq : Nat
  yearLetter : Nat
  monthLetter : Nat
deriving DecidableEq, Repr

/-- The counter groups of `^[K-Z][A-L](\d\x7b3\x7d)-(\d\x7b3\x7d)M$`
(the second regex inside `decode_serial_info`). -/
def anchoredCounters (s : List Nat) : Option (Nat × Nat) :=
  match s with
  | [c0, c1, a, b, c, h, d, e, f, m] =>
      if (75 ≤ c0 && c0 ≤ 90) && (65 ≤ c1 && c1 ≤ 76) &&
         isDigit a && isDigit b && isDigit c && h == 45 &&
         isDigit d && isDigit e && isDigit f && m == 77
      then some (digitsVal a b c, digitsVal d e f)
      else none
  | _ => none

/-- `SerialNumberValidator.decode_serial_info`: `None` on invalid format,
otherwise year and month from the two letters plus the parsed counters
(with the source's dead 0/0 fallback when the group match fails). -/
def decodeSerialInfo (s : List Nat) : Option SerialInfo :=
  if validateSerialFormat s then
    match s with
    | c0 :: c1 :: _ =>
        let yr := 2025 + (c0 - 75)
        let mo := c1 - 65 + 1
        match anchoredCounters s with
        | some (f, sec) => some ⟨yr, mo, f, sec, c0, c1⟩
        | none => some ⟨yr, mo, 0, 0, c0, c1⟩
    | _ => none
  else none

/-- Counter pair reached after `k` successful allocations in a fresh bucket:
the first counter is `k / 999 + 1`, the second `k % 999 + 1`. -/
def encF (k : Nat) : Nat := k / 999 + 1

def encS (k : Nat) : Nat := k % 999 + 1

/-- The `k`-th code allocated in a fresh bucket. -/
def codeAt (pfx : List Nat) (k : Nat) : List Nat := fmtSerial pfx (encF k) (encS k)

/-- Bucket store after `k` successful allocations starting from an empty
bucket (newest first, as each allocation inserts its code). -/
def allocState (pfx : List Nat) : Nat → List (List Nat)
  | 0 => []
  | k + 1 => codeAt pfx k :: allocState pfx k

/-- Characters the regex engine treats literally (letters and digits); the
embedding of `re.match` with an interpolated prefix is exact for these. -/
def literalChar (c : Nat) : Bool :=
  (65 ≤ c && c ≤ 90) || (97 ≤ c && c ≤ 122) || (48 ≤ c && c ≤ 57)

/-! ## Part B: process state machine

Statuses are embedded as the strings the Django models store
(`PENDING`, `IN_PROGRESS`, `APPROVED`, `REJECTED` for records;
`CREATED`, `IN_PROCESS`, `COMPLETED`, `REJECTED`, `DEFECTIVE`, `SCRAPPED`
for serials).  Timestamps are abstract instants (`Nat`), passed in as the
current time of each request. -/

/-- `operations.models.Operation`: primary key, sequence position, active
flag. -/
structure Oper where
  oid : Nat
  seqNum : Nat
  isActive : Bool
deriving DecidableEq, Repr

/-- `operations.models.ProcessRecord`: one row per (serial, operation). -/
structure PRec where
  rid : Nat
  sid : Nat
  opId : Nat
  status : String
  assignedOperator : Option Nat
  processedBy : Option Nat
  startedAt : Option Nat
  completedAt : Option Nat
  assignedAt : Option Nat
  notes : String
  qualityCheckPassed : Bool
  rejectionReason : String
  defectType : String
deriving DecidableEq, Repr

/-- `serials.models.SerialNumber`, restricted to the fields the state
machine reads and writes. -/
structure SerialRow where
  sid : Nat
  status : String
  completedAt : Option Nat
deriving DecidableEq, Repr

/-- `defects.models.Defect`, restricted to the fields the embedded
endpoints touch. -/
structure DefectRow where
  did : Nat
  sid : Nat
  opId : Nat
  defectType : String
  description : String
  status : String
  reportedBy : Nat
  repairNotes : String
  resolvedAt : Option Nat
  resolvedBy : Option Nat
  assignedRepairer : Option Nat
  returnToOperation : Option Nat
deriving DecidableEq, Repr

/-- A user together with its `UserProfile.role`. -/
structure UserRow where
  uid : Nat
  role : String
deriving DecidableEq, Repr

/-- The database state the process state machine operates on. -/
structure St where
  operations : List Oper
  serials : List SerialRow
  records : List PRec
  defects : List DefectRow
  users : List UserRow
deriving DecidableEq, Repr

/-- Row key of a `ProcessRecord` by its unique (serial, operation) pair. -/
def recKey (sid opId : Nat) : PRec → Bool := fun r => r.sid == sid && r.opId == opId

/-- Row key of a `ProcessRecord` by primary key. -/
def ridKey (rid : Nat) : PRec → Bool := fun r => r.rid == rid

def findRec (st : St) (sid opId : Nat) : Option PRec :=
  st.records.find? (recKey sid opId)

def findRecById (st : St) (rid : Nat) : Option PRec :=
  st.records.find? (ridKey rid)

def findSerial (st : St) (sid : Nat) : Option SerialRow :=
  st.serials.find? (fun s => s.sid == sid)

def findOper (st : St) (oid : Nat) : Option Oper :=
  st.operations.find? (fun o => o.oid == oid)

def findDefect (st : St) (did : Nat) : Option DefectRow :=
  st.defects.find? (fun d => d.did == did)

def userRole (st : St) (uid : Nat) : Option String :=
  (st.users.find? (fun u => u.uid == uid)).map UserRow.role

/-- Fresh primary key for an inserted `ProcessRecord`. -/
def freshRid (st : St) : Nat := (st.records.map PRec.rid).foldr Nat.max 0 + 1

/-- Fresh primary key for an inserted `Defect`. -/
def freshDid (st : St) : Nat := (st.defects.map DefectRow.did).foldr Nat.max 0 + 1

/-- Save of a mutated record: rewrite the rows matching `p` (the row's key)
with the field update `f`. -/
def updRecords (st : St) (p : PRec → Bool) (f : PRec → PRec) : St :=
  { st with records := st.records.map (fun r => if p r then f r else r) }

def updSerial (st : St) (sid : Nat) (f : SerialRow → SerialRow) : St :=
  { st with serials := st.serials.map (fun s => if s.sid == sid then f s else s) }

def updDefect (st : St) (did : Nat) (f : DefectRow → DefectRow) : St :=
  { st with defects := st.defects.map (fun d => if d.did == did then f d else d) }

/-- A `ProcessRecord` row with the model's column defaults. -/
def newPRec (rid sid opId : Nat) (status : String) : PRec :=
  ⟨rid, sid, opId, status, none, none, none, none, none, "", false, "", ""⟩

def countActiveOps (st : St) : Nat :=
  (st.operations.filter (fun o => o.isActive)).length

def countRecs (st : St) (sid : Nat) (stat : String) : Nat :=
  (st.records.filter (fun r => r.sid == sid && r.status == stat)).length

/-- The status derivation of
`ManufacturingProcessService._update_serial_status`: rejected > 0 first,
then approved = number of active operations, then approved > 0. -/
def deriveSerialStatus (st : St) (sid : Nat) : String :=
  if countRecs st sid "REJECTED" > 0 then "REJECTED"
  else if countRecs st sid "APPROVED" = countActiveOps st then "COMPLETED"
  else if countRecs st sid "APPROVED" > 0 then "IN_PROCESS"
  else "CREATED"

/-- `_update_serial_status`: store the derived status; the completion
timestamp is written only in the COMPLETED branch. -/
def updateSerialStatusSvc (st : St) (sid : Nat) (now : Nat) : St :=
  let stat := deriveSerialStatus st sid
  updSerial st sid (fun s =>
    { s with status := stat,
             completedAt := if stat == "COMPLETED" then some now else s.completedAt })

/-- `ManufacturingProcessService._validate_operation_sequence`: every active
operation at a lower sequence position must have an APPROVED record for this
serial. -/
def validateOperationSequence (st : St) (sid : Nat) (op : Oper) : Bool :=
  (st.operations.filter (fun o => o.isActive && o.seqNum < op.seqNum)).all
    (fun o =>
      match findRec st sid o.oid with
      | some r => r.status == "APPROVED"
      | none => false)

/-- Typed errors of `process_operation` (its `ValidationError` sites). -/
inductive PErr where
  | sequenceViolation
  | alreadyStarted
  | invalidApprove
  | invalidReject
  | invalidAction
deriving DecidableEq, Repr

/-- `ProcessRecord.objects.get_or_create(serial, operation,
defaults=\x7bstatus: PENDING, notes: notes\x7d)`. -/
def getOrCreateRec (st : St) (sid opId : Nat) (notes : String) : PRec × St :=
  match findRec st sid opId with
  | some r => (r, st)
  | none =>
    let r := { newPRec (freshRid st) sid opId "PENDING" with notes := notes }
    (r, { st with records := st.records ++ [r] })

/-- `if notes: process_record.notes = notes` applied after the action's
field update. -/
def notesPatch (notes : String) (patch : PRec → PRec) : PRec → PRec :=
  fun r =>
    let r1 := patch r
    if notes != "" then { r1 with notes := notes } else r1

/-- The per-action branch of `process_operation`: the status check of the
fetched record and the field update applied on success. -/
def actionPatch (rec0 : PRec) (action : String) (uid : Nat) (quality : Bool)
    (now : Nat) : Except PErr (PRec → PRec) :=
  if action == "start" then
    if rec0.status != "PENDING" then .error .alreadyStarted
    else .ok (fun r => { r with status := "IN_PROGRESS", startedAt := some now,
                                processedBy := some uid })
  else if action == "approve" then
    if !(rec0.status == "IN_PROGRESS" || rec0.status == "PENDING") then
      .error .invalidApprove
    else .ok (fun r => { r with status := "APPROVED", completedAt := some now,
                                processedBy := some uid,
                                qualityCheckPassed := quality })
  else if action == "reject" then
    if rec0.status == "APPROVED" then .error .invalidReject
    else .ok (fun r => { r with status := "REJECTED", completedAt := some now,
                                processedBy := some uid })
  else .error .invalidAction

/-- `ManufacturingProcessService.process_operation` (lines 221-309):
get-or-create the record, validate the sequence, dispatch on the action,
store the notes when non-empty, save, then recompute the serial status.  The
whole body runs inside `transaction.atomic`; an error leaves the stored
state unchanged. -/
def processOperation (st : St) (sid : Nat) (op : Oper) (action : String) (uid : Nat)
    (notes : String) (quality : Bool) (now : Nat) : Except PErr St :=
  let rs := getOrCreateRec st sid op.oid notes
  let rec0 := rs.1
  let st1 := rs.2
  if !(validateOperationSequence st1 sid op) then .error .sequenceViolation
  else
    match actionPatch rec0 action uid quality now with
    | .error e => .error e
    | .ok patch =>
      let st2 := updRecords st1 (recKey sid op.oid) (notesPatch notes patch)
      .ok (updateSerialStatusSvc st2 sid now)

/-- Transactional result of `process_operation`: on success the new state,
on error the unchanged pre-state together with the typed error (rollback of
`transaction.atomic`). -/
def processOperationCommit (st : St) (sid : Nat) (op : Oper) (action : String)
    (uid : Nat) (notes : String) (quality : Bool) (now : Nat) : St × Option PErr :=
  match processOperation st sid op action uid notes quality now with
  | .ok st' => (st', none)
  | .error e => (st, some e)

/-- The status check each action performs on the fetched record. -/
def statusAllows (status action : String) : Bool :=
  if action == "start" then status == "PENDING"
  else if action == "approve" then status == "IN_PROGRESS" || status == "PENDING"
  else if action == "reject" then !(status == "APPROVED")
  else false

/-- The precondition of `process_operation`: the sequence check on the state
after get-or-create, plus the per-action status check. -/
def processPrecondition (st : St) (sid : Nat) (op : Oper) (action : String)
    (notes : String) : Bool :=
  let rs := getOrCreateRec st sid op.oid notes
  validateOperationSequence rs.2 sid op && statusAllows rs.1.status action

/-- Failure modes of the operator and defect endpoints (their JSON error
responses and `get_object_or_404` raises). -/
inductive VErr where
  | notFound
  | alreadyAssigned
  | invalidOperator
  | actorBusy
  | noPermission
deriving DecidableEq, Repr

/-- Target-user resolution of `assign_operation`: supervisors and admins may
name a target user (who must exist with a valid role); everyone else
self-assigns. -/
def targetSel (st : St) (uid : Nat) (targetId : Option Nat) (roleReq : String) :
    Except VErr Nat :=
  match targetId with
  | some t =>
    if roleReq == "SUPERVISOR" || roleReq == "ADMIN" then
      match userRole st t with
      | none => .error .notFound
      | some r =>
        if r == "OPERATOR" || r == "SUPERVISOR" || r == "ADMIN" then .ok t
        else .error .invalidOperator
    else .ok uid
  | none => .ok uid

/-- `views_operator.assign_operation` (lines 114-188): refuse when the
record is already assigned, resolve the target, refuse when the target
already holds an IN_PROGRESS record, otherwise claim the record and move a
CREATED serial to IN_PROCESS. -/
def assignOperation (st : St) (uid : Nat) (prid : Nat) (targetId : Option Nat)
    (now : Nat) : Except VErr St :=
  match findRecById st prid with
  | none => .error .notFound
  | some pr =>
    if pr.assignedOperator.isSome then .error .alreadyAssigned
    else
      match targetSel st uid targetId ((userRole st uid).getD "") with
      | .error e => .error e
      | .ok target =>
        if st.records.any (fun r => r.assignedOperator == some target
            && r.status == "IN_PROGRESS") then .error .actorBusy
        else
          let st2 := updRecords st (ridKey prid) (fun r =>
            { r with assignedOperator := some target, status := "IN_PROGRESS",
                     startedAt := some now, assignedAt := some now })
          let st3 :=
            if (findSerial st2 pr.sid).map SerialRow.status == some "CREATED" then
              updSerial st2 pr.sid (fun s => { s with status := "IN_PROCESS" })
            else st2
          .ok st3

/-- `views_operator.reassign_operation` (lines 191-247), supervisor/admin
only: with a new operator, check the operator holds no other IN_PROGRESS
record and move the assignment (status unchanged); with none, release the
record to PENDING. -/
def reassignOperation (st : St) (uid : Nat) (prid : Nat) (newOpId : Option Nat)
    (now : Nat) : Except VErr St :=
  if !((userRole st uid).getD "" == "SUPERVISOR"
      || (userRole st uid).getD "" == "ADMIN") then .error .noPermission
  else
    match findRecById st prid with
    | none => .error .notFound
    | some _ =>
      match newOpId with
      | some t =>
        match userRole st t with
        | none => .error .notFound
        | some r =>
          if !(r == "OPERATOR" || r == "SUPERVISOR" || r == "ADMIN") then
            .error .invalidOperator
          else
            if st.records.any (fun x => x.assignedOperator == some t
                && x.status == "IN_PROGRESS" && x.rid != prid) then .error .actorBusy
            else
              .ok (updRecords st (ridKey prid) (fun x =>
                { x with assignedOperator := some t, assignedAt := some now }))
      | none =>
          .ok (updRecords st (fun x => x.rid == prid) (fun x =>
            { x with assignedOperator := none, status := "PENDING",
                     startedAt := none, assignedAt := none }))

/-- `views_operator.release_operation` (lines 393-426): the caller's
IN_PROGRESS record returns to PENDING, claim cleared. -/
def releaseOperation (st : St) (uid : Nat) (prid : Nat) : Except VErr St :=
  match findRecById st prid with
  | none => .error .notFound
  | some pr =>
    if !(pr.assignedOperator == some uid && pr.status == "IN_PROGRESS") then
      .error .notFound
    else
      .ok (updRecords st (ridKey prid) (fun x =>
        { x with assignedOperator := none, status := "PENDING",
                 startedAt := none, assignedAt := none }))

/-- `views_operator.complete_operation` (lines 250-318): requires the
caller's own IN_PROGRESS record; get-or-creates the record of the chosen
serial for that operation directly as APPROVED (no sequence validation),
then recomputes the serial status with its own rule
(approved-count ≥ active-count ⇒ COMPLETED, else IN_PROCESS). -/
def completeOperation (st : St) (uid : Nat) (prid : Nat) (sid : Nat) (notes : String)
    (quality : Bool) (now : Nat) : Except VErr St :=
  match findRecById st prid with
  | none => .error .notFound
  | some pr =>
    if !(pr.assignedOperator == some uid && pr.status == "IN_PROGRESS") then
      .error .notFound
    else
      match findSerial st sid with
      | none => .error .notFound
      | some _ =>
        let st2 :=
          match findRec st sid pr.opId with
          | some _ =>
            updRecords st (recKey sid pr.opId) (fun r =>
              { r with status := "APPROVED", completedAt := some now,
                       processedBy := some uid, notes := notes,
                       qualityCheckPassed := quality })
          | none =>
            { st with records := st.records ++
                [{ newPRec (freshRid st) sid pr.opId "APPROVED" with
                    processedBy := some uid, assignedOperator := some uid,
                    startedAt := some now, completedAt := some now,
                    assignedAt := some now, notes := notes,
                    qualityCheckPassed := quality }] }
        if countRecs st2 sid "APPROVED" ≥ countActiveOps st2 then
          .ok (updSerial st2 sid (fun s =>
            { s with status := "COMPLETED", completedAt := some now }))
        else
          .ok (updSerial st2 sid (fun s => { s with status := "IN_PROCESS" }))

/-- `views_operator.reject_serial_number` (lines 321-390): requires the
caller's own IN_PROGRESS record; creates an OPEN `Defect`, forces the serial
to DEFECTIVE, then get-or-creates/overwrites the record of the chosen serial
for that operation as REJECTED with reason and defect type. -/
def rejectSerialNumber (st : St) (uid : Nat) (prid : Nat) (sid : Nat)
    (defectType reason : String) (now : Nat) : Except VErr St :=
  match findRecById st prid with
  | none => .error .notFound
  | some pr =>
    if !(pr.assignedOperator == some uid && pr.status == "IN_PROGRESS") then
      .error .notFound
    else
      match findSerial st sid with
      | none => .error .notFound
      | some _ =>
        let defect : DefectRow :=
          ⟨freshDid st, sid, pr.opId, defectType, reason, "OPEN", uid, "", none,
           none, none, none⟩
        let st2 := { st with defects := st.defects ++ [defect] }
        let st3 := updSerial st2 sid (fun s => { s with status := "DEFECTIVE" })
        let st4 :=
          match findRec st3 sid pr.opId with
          | some _ =>
            updRecords st3 (recKey sid pr.opId) (fun r =>
              { r with status := "REJECTED", completedAt := some now,
                       processedBy := some uid, rejectionReason := reason,
                       defectType := defectType })
          | none =>
            { st3 with records := st3.records ++
                [{ newPRec (freshRid st3) sid pr.opId "REJECTED" with
                    processedBy := some uid, assignedOperator := some uid,
                    startedAt := some now, completedAt := some now,
                    assignedAt := some now, rejectionReason := reason,
                    defectType := defectType }] }
        .ok st4

/-- `defects.views.resolve_defect` (lines 121-183): permission check, then
either return the serial to an operation (defect REPAIRED, get-or-create a
PENDING record for that operation, resetting an existing one) or scrap it
(defect and serial SCRAPPED). -/
def resolveDefect (st : St) (uid : Nat) (did : Nat) (repairNotes : String)
    (retOp : Option Nat) (now : Nat) : Except VErr St :=
  match findDefect st did with
  | none => .error .notFound
  | some d =>
    match userRole st uid with
    | none => .error .notFound
    | some role =>
      if !(role == "REPAIRER" || role == "ADMIN")
          && !(d.assignedRepairer == some uid) then .error .noPermission
      else
        match retOp with
        | some opId =>
          match findOper st opId with
          | none => .error .notFound
          | some _ =>
            let st2 :=
              match findRec st d.sid opId with
              | some _ =>
                updRecords st (recKey d.sid opId) (fun r =>
                  { r with status := "PENDING", assignedOperator := none })
              | none =>
                { st with records :=
                    st.records ++ [newPRec (freshRid st) d.sid opId "PENDING"] }
            .ok (updDefect st2 did (fun x =>
              { x with repairNotes := repairNotes, resolvedAt := some now,
                       resolvedBy := some uid, status := "REPAIRED",
                       returnToOperation := some opId }))
        | none =>
          let st2 := updSerial st d.sid (fun s => { s with status := "SCRAPPED" })
          .ok (updDefect st2 did (fun x =>
            { x with repairNotes := repairNotes, resolvedAt := some now,
                     resolvedBy := some uid, status := "SCRAPPED" }))

/-- Claim C2's invariant: no APPROVED record at a sequence position while
some active operation at a lower position lacks an APPROVED record. -/
def seqInvariant (st : St) : Prop :=
  ∀ r ∈ st.records, r.status = "APPROVED" →
    ∀ opr ∈ st.operations, opr.oid = r.opId →
      ∀ o ∈ st.operations, o.isActive = true → o.seqNum < opr.seqNum →
        (findRec st r.sid o.oid).map PRec.status = some "APPROVED"

/-- Claim C3's invariant: an actor is the assigned operator of at most one
IN_PROGRESS record. -/
def actorExclusive (st : St) : Prop :=
  ∀ r1 ∈ st.records, ∀ r2 ∈ st.records,
    r1.status = "IN_PROGRESS" → r2.status = "IN_PROGRESS" →
    r1.assignedOperator.isSome = true →
    r1.assignedOperator = r2.assignedOperator → r1 = r2

/-- Primary keys of the operation catalog are unique. -/
def opsIdInjective (st : St) : Prop :=
  ∀ o1 ∈ st.operations, ∀ o2 ∈ st.operations, o1.oid = o2.oid → o1 = o2

/-- Primary keys of the record table are unique. -/
def ridInjective (st : St) : Prop :=
  ∀ r1 ∈ st.records, ∀ r2 ∈ st.records, r1.rid = r2.rid → r1 = r2

instance (st : St) : Decidable (seqInvariant st) := by
  unfold seqInvariant; infer_instance

instance (st : St) : Decidable (actorExclusive st) := by
  unfold actorExclusive; infer_instance

instance (st : St) : Decidable (opsIdInjective st) := by
  unfold opsIdInjective; infer_instance

instance (st : St) : Decidable (ridInjective st) := by
  unfold ridInjective; infer_instance

/-- One transition of the system: any endpoint succeeding (the operation of
a `process_operation` call is fetched from the catalog). -/
inductive StepTo : St → St → Prop where
  | proc : ∀ st sid op action uid notes quality now st', op ∈ st.operations →
      processOperation st sid op action uid notes quality now = .ok st' → StepTo st st'
  | assign : ∀ st uid prid target now st',
      assignOperation st uid prid target now = .ok st' → StepTo st st'
  | reassign : ∀ st uid prid newOp now st',
      reassignOperation st uid prid newOp now = .ok st' → StepTo st st'
  | release : ∀ st uid prid st',
      releaseOperation st uid prid = .ok st' → StepTo st st'
  | complete : ∀ st uid prid sid notes quality now st',
      completeOperation st uid prid sid notes quality now = .ok st' → StepTo st st'
  | reject : ∀ st uid prid sid dt reason now st',
      rejectSerialNumber st uid prid sid dt reason now = .ok st' → StepTo st st'
  | resolve : ∀ st uid did notes retOp now st',
      resolveDefect st uid did notes retOp now = .ok st' → StepTo st st'

/-- Reachability through endpoint transitions. -/
inductive ReachFrom (init : St) : St → Prop where
  | refl : ReachFrom init init
  | step : ∀ st st', ReachFrom init st → StepTo st st' → ReachFrom init st'

/-! ### Concrete states used to evaluate the endpoints -/

def op1 : Oper := ⟨1, 1, true⟩

def op2 : Oper := ⟨2, 2, true⟩

def op3 : Oper := ⟨3, 3, true⟩

/-- One active operation, serial 1 with its record IN_PROGRESS held by
user 7. -/
def stOneInProgress : St :=
  { operations := [op1],
    serials := [⟨1, "IN_PROCESS", none⟩],
    records := [⟨1, 1, 1, "IN_PROGRESS", some 7, none, some 0, none, some 0, "",
      false, "", ""⟩],
    defects := [],
    users := [⟨7, "OPERATOR"⟩] }

def c1Bad : St :=
  (rejectSerialNumber stOneInProgress 7 1 1 "SOLDER" "bad joint" 5).toOption.getD
    stOneInProgress

def c1Good : St :=
  (processOperation stOneInProgress 1 op1 "approve" 7 "" true 5).toOption.getD
    stOneInProgress

def c6Bad : St :=
  (processOperation stOneInProgress 1 op1 "reject" 7 "flaw" false 5).toOption.getD
    stOneInProgress

/-- Two active operations; serial 1 entirely PENDING; user 7 holds an
IN_PROGRESS record of serial 2 for operation 2 (the operator's work-view
record). -/
def c2St : St :=
  { operations := [op1, op2],
    serials := [⟨1, "IN_PROCESS", none⟩, ⟨2, "IN_PROCESS", none⟩],
    records := [⟨1, 1, 1, "PENDING", none, none, none, none, none, "", false, "", ""⟩,
      ⟨2, 1, 2, "PENDING", none, none, none, none, none, "", false, "", ""⟩,
      ⟨3, 2, 2, "IN_PROGRESS", some 7, none, some 0, none, some 0, "", false, "", ""⟩],
    defects := [],
    users := [⟨7, "OPERATOR"⟩] }

def c2Bad : St := (completeOperation c2St 7 3 1 "" true 5).toOption.getD c2St

/-- Initial state of the C3 trace: one active operation, two fresh serials
without records, an operator 7, a supervisor 8, an operator 9. -/
def c3Init : St :=
  { operations := [op1],
    serials := [⟨1, "CREATED", none⟩, ⟨2, "CREATED", none⟩],
    records := [],
    defects := [],
    users := [⟨7, "OPERATOR"⟩, ⟨8, "SUPERVISOR"⟩, ⟨9, "OPERATOR"⟩] }

def c3S1 : St := (processOperation c3Init 1 op1 "start" 7 "" false 0).toOption.getD c3Init

def c3S2 : St := (reassignOperation c3S1 8 1 none 0).toOption.getD c3S1

def c3S3 : St := (processOperation c3S2 2 op1 "start" 9 "" false 0).toOption.getD c3S2

def c3S4 : St := (reassignOperation c3S3 8 2 none 0).toOption.getD c3S3

def c3S5 : St := (reassignOperation c3S4 8 1 (some 7) 0).toOption.getD c3S4

def c3S6 : St := (assignOperation c3S5 7 2 none 0).toOption.getD c3S5

def c3S7 : St := (processOperation c3S6 1 op1 "start" 7 "" false 0).toOption.getD c3S6

/-- Serial 1 rejected at operation 2 (record REJECTED, open defect assigned
to repairer 9); operation 3 has no record yet. -/
def c7St : St :=
  { operations := [op1, op2, op3],
    serials := [⟨1, "DEFECTIVE", none⟩],
    records := [⟨1, 1, 1, "APPROVED", none, some 7, some 0, some 1, some 0, "",
        true, "", ""⟩,
      ⟨2, 1, 2, "REJECTED", some 7, some 7, some 0, some 2, some 0, "", false,
        "bad joint", "SOLDER"⟩],
    defects := [⟨1, 1, 2, "SOLDER", "bad joint", "OPEN", 7, "", none, none,
      some 9, none⟩],
    users := [⟨7, "OPERATOR"⟩, ⟨9, "REPAIRER"⟩] }

def c7Bad : St := (resolveDefect c7St 9 1 "resoldered" (some 2) 6).toOption.getD c7St

def c7New : St := (resolveDefect c7St 9 1 "resoldered" (some 3) 6).toOption.getD c7St

/-- One active operation, serial 1 with a PENDING record. -/
def c8St : St :=
  { operations := [op1],
    serials := [⟨1, "CREATED", none⟩],
    records := [⟨1, 1, 1, "PENDING", none, none, none, none, none, "", false, "", ""⟩],
    defects := [],
    users := [⟨7, "OPERATOR"⟩] }

def c8Good : St := (processOperation c8St 1 op1 "approve" 7 "" true 5).toOption.getD c8St

/-- User 7 holds an IN_PROGRESS record of serial 1; serial 2's record is
PENDING and unassigned. -/
def c3WSt : St :=
  { operations := [op1],
    serials := [⟨1, "IN_PROCESS", none⟩, ⟨2, "CREATED", none⟩],
    records := [⟨1, 1, 1, "IN_PROGRESS", some 7, none, some 0, none, some 0, "",
        false, "", ""⟩,
      ⟨2, 2, 1, "PENDING", none, none, none, none, none, "", false, "", ""⟩],
    defects := [],
    users := [⟨7, "OPERATOR"⟩] }

def c3Assigned : St := (assignOperation c8St 7 1 none 0).toOption.getD c8St

/-- One active operation, serial 1 with its record already APPROVED. -/
def c9St : St :=
  { operations := [op1],
    serials := [⟨1, "COMPLETED", some 1⟩],
    records := [⟨1, 1, 1, "APPROVED", none, some 7, some 0, some 1, none, "",
      true, "", ""⟩],
    defects := [],
    users := [⟨7, "OPERATOR"⟩] }

/-! ### Allocator lemmas -/

theorem parse3_pad3 (n : Nat) (hn : n ≤ 999) (r : List Nat) :
    parse3 (pad3 n ++ r) = some (n, r) := by
  simp only [pad3, List.cons_append, List.nil_append, parse3]
  rw [if_pos]
  · simp only [digitsVal, Option.some.injEq, Prod.mk.injEq]
    refine ⟨by omega, trivial⟩
  · simp only [isDigit, Bool.and_eq_true, decide_eq_true_eq]
    omega

theorem matchCounters_fmt (f s : Nat) (hf : f ≤ 999) (hs : s ≤ 999) :
    matchCounters (pad3 f ++ 45 :: (pad3 s ++ [77])) = some (f, s) := by
  unfold matchCounters
  rw [parse3_pad3 f hf]
  simp only [mcStart, mcDash]
  rw [parse3_pad3 s hs]
  simp only [mcFinish]

theorem isPrefixOf_append_self (pfx x : List Nat) : pfx.isPrefixOf (pfx ++ x) = true := by
  rw [List.isPrefixOf_iff_prefix]
  exact List.prefix_append pfx x

theorem reMatch_fmt (pfx : List Nat) (f s : Nat) (hf : f ≤ 999) (hs : s ≤ 999) :
    reMatchCounters pfx (fmtSerial pfx f s) = some (f, s) := by
  unfold reMatchCounters fmtSerial
  rw [List.append_assoc, isPrefixOf_append_self, if_pos rfl, List.drop_left,
    matchCounters_fmt f s hf hs]

theorem lexLt_cons (a b : Nat) (as bs : List Nat) :
    lexLt (a :: as) (b :: bs)
      = if a < b then true else if b < a then false else lexLt as bs := rfl

theorem lexLt_nil : lexLt ([] : List Nat) [] = false := rfl

theorem lexLt_append_same (p a b : List Nat) : lexLt (p ++ a) (p ++ b) = lexLt a b := by
  induction p with
  | nil => rfl
  | cons c cs ih => simp [lexLt, ih]

theorem lexLt_irrefl (l : List Nat) : lexLt l l = false := by
  induction l with
  | nil => rfl
  | cons c cs ih => simp [lexLt, ih]

theorem lexLt_append_len (x : List Nat) : ∀ (y : List Nat) (r1 r2 : List Nat),
    x.length = y.length →
    lexLt (x ++ r1) (y ++ r2) =
      if lexLt x y then true else if lexLt y x then false else lexLt r1 r2 := by
  induction x with
  | nil =>
    intro y r1 r2 h
    cases y with
    | nil => simp [lexLt_nil]
    | cons b bs => simp at h
  | cons a as ih =>
    intro y r1 r2 h
    cases y with
    | nil => simp at h
    | cons b bs =>
      simp only [List.cons_append, lexLt_cons]
      by_cases hab : a < b
      · simp [hab]
      · by_cases hba : b < a
        · simp [hab, hba]
        · simp only [hab, hba, if_false, if_neg]
          rw [ih bs r1 r2 (by simpa using h)]

theorem lexLt_pad3 (a b : Nat) (ha : a ≤ 999) (hb : b ≤ 999) :
    lexLt (pad3 a) (pad3 b) = decide (a < b) := by
  simp only [pad3, lexLt_cons, lexLt_nil]
  split_ifs <;> simp_all <;> omega

theorem suffix_lt_iff (f1 s1 f2 s2 : Nat) (h1 : f1 ≤ 999) (h2 : s1 ≤ 999)
    (h3 : f2 ≤ 999) (h4 : s2 ≤ 999) :
    lexLt (pad3 f1 ++ 45 :: (pad3 s1 ++ [77])) (pad3 f2 ++ 45 :: (pad3 s2 ++ [77])) = true ↔
      (f1 < f2 ∨ (f1 = f2 ∧ s1 < s2)) := by
  rw [lexLt_append_len _ _ _ _ (by simp [pad3])]
  rw [lexLt_pad3 f1 f2 h1 h3, lexLt_pad3 f2 f1 h3 h1]
  rw [lexLt_cons]
  rw [lexLt_append_len _ _ _ _ (by simp [pad3])]
  rw [lexLt_pad3 s1 s2 h2 h4, lexLt_pad3 s2 s1 h4 h2]
  simp only [lexLt_cons, Nat.lt_irrefl, if_false, lexLt_nil]
  split_ifs <;> simp_all <;> omega

theorem fmt_lt_iff (pfx : List Nat) (f1 s1 f2 s2 : Nat) (h1 : f1 ≤ 999) (h2 : s1 ≤ 999)
    (h3 : f2 ≤ 999) (h4 : s2 ≤ 999) :
    lexLt (fmtSerial pfx f1 s1) (fmtSerial pfx f2 s2) = true ↔
      (f1 < f2 ∨ (f1 = f2 ∧ s1 < s2)) := by
  unfold fmtSerial
  rw [List.append_assoc, List.append_assoc, lexLt_append_same]
  exact suffix_lt_iff f1 s1 f2 s2 h1 h2 h3 h4

theorem foldlMax_keep (m : List Nat) (l : List (List Nat))
    (h : ∀ x ∈ l, lexLt m x = false) : l.foldl maxStep (some m) = some m := by
  induction l with
  | nil => rfl
  | cons a as ih =>
    have ha := h a (by simp)
    simp only [List.foldl_cons, maxStep, ha, if_false]
    exact ih (fun x hx => h x (by simp [hx]))

theorem mem_allocState (pfx : List Nat) (k : Nat) (x : List Nat) :
    x ∈ allocState pfx k ↔ ∃ i, i < k ∧ x = codeAt pfx i := by
  induction k with
  | zero => simp [allocState]
  | succ j ih =>
    simp only [allocState, List.mem_cons, ih]
    constructor
    · rintro (rfl | ⟨i, hi, rfl⟩)
      · exact ⟨j, by omega, rfl⟩
      · exact ⟨i, by omega, rfl⟩
    · rintro ⟨i, hi, rfl⟩
      rcases Nat.lt_or_ge i j with hlt | hge
      · exact Or.inr ⟨i, hlt, rfl⟩
      · have : i = j := by omega
        subst this
        exact Or.inl rfl

theorem encF_le (k : Nat) (h : k ≤ 998000) : encF k ≤ 999 := by unfold encF; omega

theorem encS_le (k : Nat) : encS k ≤ 999 := by unfold encS; omega

theorem codeAt_lt (pfx : List Nat) (i j : Nat) (hij : i < j) (hj : j ≤ 998000) :
    lexLt (codeAt pfx i) (codeAt pfx j) = true := by
  unfold codeAt
  rw [fmt_lt_iff pfx _ _ _ _ (encF_le i (by omega)) (encS_le i) (encF_le j hj) (encS_le j)]
  unfold encF encS
  omega

theorem codeAt_not_lt (pfx : List Nat) (i j : Nat) (hij : i ≤ j) (hj : j ≤ 998000) :
    lexLt (codeAt pfx j) (codeAt pfx i) = false := by
  rw [Bool.eq_false_iff]
  intro htrue
  unfold codeAt at htrue
  rw [fmt_lt_iff pfx _ _ _ _ (encF_le j hj) (encS_le j) (encF_le i (by omega)) (encS_le i)]
      at htrue
  unfold encF encS at htrue
  omega

theorem dbMax_allocState (pfx : List Nat) (j : Nat) (hj : j ≤ 998000) :
    dbMaxSerial pfx (allocState pfx (j + 1)) = some (codeAt pfx j) := by
  unfold dbMaxSerial
  have hfil : (allocState pfx (j + 1)).filter (fun s => pfx.isPrefixOf s)
      = allocState pfx (j + 1) := by
    apply List.filter_eq_self.mpr
    intro a ha
    rcases (mem_allocState pfx (j + 1) a).mp ha with ⟨i, _, rfl⟩
    show pfx.isPrefixOf (fmtSerial pfx (encF i) (encS i)) = true
    unfold fmtSerial
    rw [List.append_assoc]
    exact isPrefixOf_append_self pfx _
  rw [hfil]
  show (codeAt pfx j :: allocState pfx j).foldl maxStep none = some (codeAt pfx j)
  rw [List.foldl_cons]
  show (allocState pfx j).foldl maxStep (some (codeAt pfx j)) = some (codeAt pfx j)
  apply foldlMax_keep
  intro x hx
  rcases (mem_allocState pfx j x).mp hx with ⟨i, hi, rfl⟩
  exact codeAt_not_lt pfx i j (by omega) hj

theorem genPfx_allocState (pfx : List Nat) (k : Nat) (hk : k < 998001) :
    genPfx pfx (allocState pfx k) = .ok (codeAt pfx k, allocState pfx (k + 1)) := by
  match k with
  | 0 =>
    show genPfx pfx [] = _
    rfl
  | j + 1 =>
    unfold genPfx
    rw [dbMax_allocState pfx j (by omega)]
    simp only [genScan]
    rw [show codeAt pfx j = fmtSerial pfx (encF j) (encS j) from rfl]
    rw [reMatch_fmt pfx _ _ (encF_le j (by omega)) (encS_le j)]
    simp only [genCont]
    by_cases hs : encS j < 999
    · rw [if_pos hs]
      have h1 : encF (j + 1) = encF j := by unfold encF encS at *; omega
      have h2 : encS (j + 1) = encS j + 1 := by unfold encF encS at *; omega
      rw [show allocState pfx (j + 1 + 1) = codeAt pfx (j + 1) :: allocState pfx (j + 1)
        from rfl]
      rw [show codeAt pfx (j + 1) = fmtSerial pfx (encF (j + 1)) (encS (j + 1)) from rfl]
      rw [h1, h2]
    · rw [if_neg hs]
      have hf : ¬ (encF j + 1 > 999) := by unfold encF encS at *; omega
      rw [if_neg hf]
      have h1 : encF (j + 1) = encF j + 1 := by unfold encF encS at *; omega
      have h2 : encS (j + 1) = 1 := by unfold encS at *; omega
      rw [show allocState pfx (j + 1 + 1) = codeAt pfx (j + 1) :: allocState pfx (j + 1)
        from rfl]
      rw [show codeAt pfx (j + 1) = fmtSerial pfx (encF (j + 1)) (encS (j + 1)) from rfl]
      rw [h1, h2]

theorem genPfx_exhausted (pfx : List Nat) :
    genPfx pfx (allocState pfx 998001) = .error .exhausted := by
  unfold genPfx
  rw [show (998001 : Nat) = 998000 + 1 from rfl, dbMax_allocState pfx 998000 (le_refl _)]
  simp only [genScan]
  rw [show codeAt pfx 998000 = fmtSerial pfx (encF 998000) (encS 998000) from rfl]
  rw [reMatch_fmt pfx _ _ (encF_le _ (le_refl _)) (encS_le _)]
  have h1 : encS 998000 = 999 := by unfold encS; norm_num
  have h2 : encF 998000 = 999 := by unfold encF; norm_num
  simp only [genCont, h1, h2]
  norm_num

theorem dbMax_none (pfx : List Nat) (store : List (List Nat))
    (h : ∀ x ∈ store, pfx.isPrefixOf x = false) : dbMaxSerial pfx store = none := by
  unfold dbMaxSerial
  rw [List.filter_eq_nil_iff.mpr (by intro a ha; simp [h a ha])]
  rfl

theorem genPfx_noBucket (pfx : List Nat) (store : List (List Nat))
    (h : ∀ x ∈ store, pfx.isPrefixOf x = false) :
    genPfx pfx store = .ok (fmtSerial pfx 1 1, fmtSerial pfx 1 1 :: store) := by
  unfold genPfx
  rw [dbMax_none pfx store h]
  rfl

theorem dbMax_singleton (pfx : List Nat) (f s : Nat) :
    dbMaxSerial pfx [fmtSerial pfx f s] = some (fmtSerial pfx f s) := by
  unfold dbMaxSerial
  have hfil : List.filter (fun s' => pfx.isPrefixOf s') [fmtSerial pfx f s]
      = [fmtSerial pfx f s] := by
    apply List.filter_eq_self.mpr
    intro a ha
    simp only [List.mem_singleton] at ha
    subst ha
    show pfx.isPrefixOf (fmtSerial pfx f s) = true
    unfold fmtSerial
    rw [List.append_assoc]
    exact isPrefixOf_append_self pfx _
  rw [hfil]
  rfl

theorem genPfx_singleton_inc (pfx : List Nat) (f s : Nat) (hf : f ≤ 999) (hs : s < 999) :
    genPfx pfx [fmtSerial pfx f s]
      = .ok (fmtSerial pfx f (s + 1), [fmtSerial pfx f (s + 1), fmtSerial pfx f s]) := by
  unfold genPfx
  rw [dbMax_singleton]
  simp only [genScan]
  rw [reMatch_fmt pfx f s hf (by omega)]
  simp only [genCont]
  rw [if_pos hs]

theorem genPfx_singleton_carry (pfx : List Nat) (f : Nat) (hf : f + 1 ≤ 999) :
    genPfx pfx [fmtSerial pfx f 999]
      = .ok (fmtSerial pfx (f + 1) 1, [fmtSerial pfx (f + 1) 1, fmtSerial pfx f 999]) := by
  unfold genPfx
  rw [dbMax_singleton]
  simp only [genScan]
  rw [reMatch_fmt pfx f 999 (by omega) (by omega)]
  simp only [genCont]
  rw [if_neg (by omega), if_neg (by omega)]

theorem genPfx_singleton_exhaust (pfx : List Nat) :
    genPfx pfx [fmtSerial pfx 999 999] = .error .exhausted := by
  unfold genPfx
  rw [dbMax_singleton]
  simp only [genScan]
  rw [reMatch_fmt pfx 999 999 (by omega) (by omega)]
  simp only [genCont]
  rw [if_neg (by omega), if_pos (by omega)]

theorem parse3_le (l : List Nat) (n : Nat) (r : List Nat) (h : parse3 l = some (n, r)) :
    n ≤ 999 := by
  unfold parse3 at h
  split at h
  · rename_i a b c rest
    split at h
    · rename_i hd
      simp only [Option.some.injEq, Prod.mk.injEq] at h
      simp only [isDigit, Bool.and_eq_true, decide_eq_true_eq] at hd
      have : digitsVal a b c ≤ 999 := by unfold digitsVal; omega
      omega
    · exact absurd h (by simp)
  · exact absurd h (by simp)

theorem matchCounters_le (l : List Nat) (f s : Nat) (h : matchCounters l = some (f, s)) :
    f ≤ 999 ∧ s ≤ 999 := by
  unfold matchCounters mcStart at h
  split at h
  · rename_i f0 rest heq
    unfold mcDash at h
    split at h
    · rename_i rest2
      unfold mcFinish at h
      split at h
      · rename_i s0 tail heq2
        simp only [Option.some.injEq, Prod.mk.injEq] at h
        obtain ⟨rfl, rfl⟩ := h
        exact ⟨parse3_le _ _ _ heq, parse3_le _ _ _ heq2⟩
      · exact absurd h (by simp)
    · exact absurd h (by simp)
  · exact absurd h (by simp)

theorem reMatch_le (pfx l : List Nat) (f s : Nat) (h : reMatchCounters pfx l = some (f, s)) :
    f ≤ 999 ∧ s ≤ 999 := by
  unfold reMatchCounters at h
  split_ifs at h
  exact matchCounters_le _ _ _ h

theorem genPfx_ok_shape (pfx : List Nat) (store : List (List Nat)) (ser : List Nat)
    (st' : List (List Nat)) (h : genPfx pfx store = .ok (ser, st')) :
    ∃ f s, f ≤ 999 ∧ s ≤ 999 ∧ ser = fmtSerial pfx f s ∧ st' = ser :: store := by
  unfold genPfx at h
  cases hdb : dbMaxSerial pfx store with
  | none =>
    rw [hdb] at h
    simp only [genScan, Except.ok.injEq, Prod.mk.injEq] at h
    exact ⟨1, 1, by omega, by omega, h.1.symm, by rw [← h.2, h.1]⟩
  | some last =>
    rw [hdb] at h
    simp only [genScan] at h
    cases hm : reMatchCounters pfx last with
    | none =>
      rw [hm] at h
      simp only [genCont, Except.ok.injEq, Prod.mk.injEq] at h
      exact ⟨1, 1, by omega, by omega, h.1.symm, by rw [← h.2, h.1]⟩
    | some fs =>
      obtain ⟨f, s⟩ := fs
      rw [hm] at h
      simp only [genCont] at h
      have hb := reMatch_le pfx last f s hm
      by_cases hs : s < 999
      · rw [if_pos hs] at h
        simp only [Except.ok.injEq, Prod.mk.injEq] at h
        exact ⟨f, s + 1, by omega, by omega, h.1.symm, by rw [← h.2, h.1]⟩
      · rw [if_neg hs] at h
        by_cases hf : f + 1 > 999
        · rw [if_pos hf] at h
          exact absurd h (by simp)
        · rw [if_neg hf] at h
          simp only [Except.ok.injEq, Prod.mk.injEq] at h
          exact ⟨f + 1, 1, by omega, by omega, h.1.symm, by rw [← h.2, h.1]⟩

theorem fmtSerial_explicit (yl ml f s : Nat) :
    fmtSerial [yl, ml] f s
      = [yl, ml, 48 + f / 100, 48 + f / 10 % 10, 48 + f % 10, 45,
         48 + s / 100, 48 + s / 10 % 10, 48 + s % 10, 77] := by
  simp [fmtSerial, pad3]

theorem validate_fmt (yl ml f s : Nat) (hyl : 75 ≤ yl) (hyl2 : yl ≤ 90)
    (hml : 65 ≤ ml) (hml2 : ml ≤ 76) (hf : f ≤ 999) (hs : s ≤ 999) :
    validateSerialFormat (fmtSerial [yl, ml] f s) = true := by
  rw [fmtSerial_explicit]
  simp only [validateSerialFormat, isDigit, Bool.and_eq_true, decide_eq_true_eq, beq_iff_eq]
  norm_num
  omega

theorem validate_fmt_highYear (yl ml f s : Nat) (h : 90 < yl) :
    validateSerialFormat (fmtSerial [yl, ml] f s) = false := by
  rw [fmtSerial_explicit]
  rw [Bool.eq_false_iff]
  intro hcontra
  simp only [validateSerialFormat, isDigit, Bool.and_eq_true, decide_eq_true_eq,
    beq_iff_eq] at hcontra
  omega

theorem anchored_fmt (yl ml f s : Nat) (hyl : 75 ≤ yl) (hyl2 : yl ≤ 90)
    (hml : 65 ≤ ml) (hml2 : ml ≤ 76) (hf : f ≤ 999) (hs : s ≤ 999) :
    anchoredCounters (fmtSerial [yl, ml] f s) = some (f, s) := by
  rw [fmtSerial_explicit]
  simp only [anchoredCounters]
  rw [if_pos]
  · simp only [digitsVal, Option.some.injEq, Prod.mk.injEq]
    refine ⟨by omega, by omega⟩
  · simp only [isDigit, Bool.and_eq_true, decide_eq_true_eq, beq_iff_eq]
    norm_num
    omega

theorem decode_fmt (yl ml f s : Nat) (hyl : 75 ≤ yl) (hyl2 : yl ≤ 90)
    (hml : 65 ≤ ml) (hml2 : ml ≤ 76) (hf : f ≤ 999) (hs : s ≤ 999) :
    decodeSerialInfo (fmtSerial [yl, ml] f s)
      = some ⟨2025 + (yl - 75), ml - 65 + 1, f, s, yl, ml⟩ := by
  unfold decodeSerialInfo
  rw [validate_fmt yl ml f s hyl hyl2 hml hml2 hf hs]
  rw [anchored_fmt yl ml f s hyl hyl2 hml hml2 hf hs]
  rw [fmtSerial_explicit]
  rfl

theorem decode_invalid (s : List Nat) (h : validateSerialFormat s = false) :
    decodeSerialInfo s = none := by
  unfold decodeSerialInfo
  rw [h]
  rfl

theorem getYearLetter_ok (y : Nat) (h1 : 2025 ≤ y) (h2 : y ≤ 2050) :
    getYearLetter y = .ok (75 + (y - 2025)) := by
  unfold getYearLetter
  rw [if_neg (by omega), if_neg (by omega)]

theorem getMonthLetter_ok (mo : Nat) (h1 : 1 ≤ mo) (h2 : mo ≤ 12) :
    getMonthLetter mo = .ok (64 + mo) := by
  unfold getMonthLetter
  rw [if_neg (by simp; omega)]
  simp only [Except.ok.injEq]
  omega

theorem codeAt_ne (pfx : List Nat) (i j : Nat) (hij : i < j) (hj : j ≤ 998000) :
    codeAt pfx i ≠ codeAt pfx j := by
  intro he
  have hlt := codeAt_lt pfx i j hij hj
  rw [he, lexLt_irrefl] at hlt
  exact Bool.false_ne_true hlt

/-! ## Claim theorems for the allocator -/

/-- C4: for a fixed bucket, allocation starts both 3-digit counters at 1 when
no identifier with that bucket prefix exists; otherwise it parses the two
counters of the lexicographically greatest identifier with that prefix,
increments the second counter, carries into the first (resetting the second
to 1) when the second would exceed 999, and fails with the exhaustion error
when the first would exceed 999.  Consequently successive allocations in one
bucket yield strictly increasing, duplicate-free codes up to the 999 × 999
boundary, after which allocation fails with the exhaustion error. -/
theorem c4_allocator_counters :
    (∀ pfx store, (∀ x ∈ store, pfx.isPrefixOf x = false) →
      genPfx pfx store = .ok (fmtSerial pfx 1 1, fmtSerial pfx 1 1 :: store)) ∧
    (∀ pfx f s, f ≤ 999 → s < 999 →
      genPfx pfx [fmtSerial pfx f s]
        = .ok (fmtSerial pfx f (s + 1), [fmtSerial pfx f (s + 1), fmtSerial pfx f s])) ∧
    (∀ pfx f, f + 1 ≤ 999 →
      genPfx pfx [fmtSerial pfx f 999]
        = .ok (fmtSerial pfx (f + 1) 1, [fmtSerial pfx (f + 1) 1, fmtSerial pfx f 999])) ∧
    (∀ pfx, genPfx pfx [fmtSerial pfx 999 999] = .error .exhausted) ∧
    (∀ pfx k, k < 998001 →
      genPfx pfx (allocState pfx k) = .ok (codeAt pfx k, allocState pfx (k + 1))) ∧
    (∀ pfx i j, i < j → j ≤ 998000 →
      lexLt (codeAt pfx i) (codeAt pfx j) = true ∧ codeAt pfx i ≠ codeAt pfx j) ∧
    (∀ pfx, genPfx pfx (allocState pfx 998001) = .error .exhausted) :=
  ⟨genPfx_noBucket, genPfx_singleton_inc, genPfx_singleton_carry, genPfx_singleton_exhaust,
   genPfx_allocState,
   fun pfx i j hij hj => ⟨codeAt_lt pfx i j hij hj, codeAt_ne pfx i j hij hj⟩,
   genPfx_exhausted⟩

/-- Witness for C4 at concrete inputs (bucket prefix KA = [75, 65]). -/
theorem c4_allocator_counters_witness :
    genPfx [75, 65] [] = .ok (fmtSerial [75, 65] 1 1, [fmtSerial [75, 65] 1 1]) ∧
    genPfx [75, 65] [fmtSerial [75, 65] 3 7]
      = .ok (fmtSerial [75, 65] 3 8, [fmtSerial [75, 65] 3 8, fmtSerial [75, 65] 3 7]) ∧
    genPfx [75, 65] [fmtSerial [75, 65] 3 999]
      = .ok (fmtSerial [75, 65] 4 1, [fmtSerial [75, 65] 4 1, fmtSerial [75, 65] 3 999]) ∧
    genPfx [75, 65] [fmtSerial [75, 65] 999 999] = .error .exhausted ∧
    genPfx [75, 65] (allocState [75, 65] 5)
      = .ok (codeAt [75, 65] 5, allocState [75, 65] 6) ∧
    lexLt (codeAt [75, 65] 2) (codeAt [75, 65] 5) = true ∧
    codeAt [75, 65] 2 ≠ codeAt [75, 65] 5 ∧
    genPfx [75, 65] (allocState [75, 65] 998001) = .error .exhausted := by
  obtain ⟨h1, h2, h3, h4, h5, h6, h7⟩ := c4_allocator_counters
  refine ⟨h1 [75, 65] [] (by simp), h2 [75, 65] 3 7 (by omega) (by omega),
    h3 [75, 65] 3 (by omega), h4 [75, 65], h5 [75, 65] 5 (by omega),
    (h6 [75, 65] 2 5 (by omega) (by omega)).1, (h6 [75, 65] 2 5 (by omega) (by omega)).2,
    h7 [75, 65]⟩

/-- C5 as stated is false: for the bucket (2041, January) allocation
succeeds (year letter code 91, one past Z), but decoding the freshly
allocated identifier reports invalid format (`None`) instead of returning
the bucket and counters. -/
theorem c5_counterexample :
    generateSerialNumber 2041 1 "P1" [("P1", true)] []
      = .ok (fmtSerial [91, 65] 1 1, [fmtSerial [91, 65] 1 1]) ∧
    decodeSerialInfo (fmtSerial [91, 65] 1 1) = none := by
  constructor
  · rfl
  · rfl

/-- C5 amended: for buckets whose year lies in 2025..2040 (year letters
K..Z) and month in 1..12, decoding a freshly allocated identifier returns
exactly the original bucket and the two counters encoded in it; and decoding
any string that fails the format check returns `None` instead of a value. -/
theorem c5_amended_roundtrip :
    (∀ y mo pn parts store ser st', 2025 ≤ y → y ≤ 2040 → 1 ≤ mo → mo ≤ 12 →
      generateSerialNumber y mo pn parts store = .ok (ser, st') →
      ∃ f s, f ≤ 999 ∧ s ≤ 999 ∧ ser = fmtSerial [75 + (y - 2025), 64 + mo] f s ∧
        decodeSerialInfo ser = some ⟨y, mo, f, s, 75 + (y - 2025), 64 + mo⟩) ∧
    (∀ l, validateSerialFormat l = false → decodeSerialInfo l = none) := by
  constructor
  · intro y mo pn parts store ser st' hy1 hy2 hm1 hm2 h
    unfold generateSerialNumber at h
    split at h
    · exact absurd h (by simp)
    · rw [getYearLetter_ok y hy1 (by omega), getMonthLetter_ok mo hm1 hm2] at h
      obtain ⟨f, s, hf, hs, rfl, _⟩ := genPfx_ok_shape _ _ _ _ h
      refine ⟨f, s, hf, hs, rfl, ?_⟩
      rw [decode_fmt _ _ _ _ (by omega) (by omega) (by omega) (by omega) hf hs]
      have e1 : 2025 + (75 + (y - 2025) - 75) = y := by omega
      have e2 : 64 + mo - 65 + 1 = mo := by omega
      rw [e1, e2]
  · exact decode_invalid

/-- Witness for the amended C5 at the bucket (2025, January). -/
theorem c5_amended_roundtrip_witness :
    (∃ f s, f ≤ 999 ∧ s ≤ 999 ∧
        fmtSerial [75, 65] 1 1 = fmtSerial [75 + (2025 - 2025), 64 + 1] f s ∧
        decodeSerialInfo (fmtSerial [75, 65] 1 1)
          = some ⟨2025, 1, f, s, 75 + (2025 - 2025), 64 + 1⟩) ∧
    decodeSerialInfo [1, 2, 3] = none := by
  constructor
  · exact c5_amended_roundtrip.1 2025 1 "P1" [("P1", true)] []
      (fmtSerial [75, 65] 1 1) [fmtSerial [75, 65] 1 1]
      (by omega) (by omega) (by omega) (by omega) (by rfl)
  · exact c5_amended_roundtrip.2 [1, 2, 3] (by rfl)

/-- C10: allocation is only defined for years from 2025 on: for
2025 ≤ y ≤ 2050 the year letter is code 75 + (y − 2025) (chr(ord of K plus
offset)); for y < 2025 or y > 2050 the year-letter computation errors and
allocation never succeeds; and for 2041 ≤ y ≤ 2050 the produced first
character lies past Z (code 90), so every identifier the allocator generates
for such a year is rejected by the allocator's own format validator. -/
theorem c10_year_letter_range :
    (∀ y, 2025 ≤ y → y ≤ 2050 → getYearLetter y = .ok (75 + (y - 2025))) ∧
    (∀ y, y < 2025 → getYearLetter y = .error .yearTooSmall) ∧
    (∀ y, 2050 < y → getYearLetter y = .error .yearTooLarge) ∧
    (∀ y, 2041 ≤ y → y ≤ 2050 → 90 < 75 + (y - 2025)) ∧
    (∀ y mo pn parts store ser st', 2041 ≤ y → y ≤ 2050 →
      generateSerialNumber y mo pn parts store = .ok (ser, st') →
      validateSerialFormat ser = false) ∧
    (∀ y mo pn parts store res, y < 2025 ∨ 2050 < y →
      generateSerialNumber y mo pn parts store ≠ .ok res) := by
  refine ⟨getYearLetter_ok, ?_, ?_, ?_, ?_, ?_⟩
  · intro y h
    unfold getYearLetter
    rw [if_pos (by omega)]
  · intro y h
    unfold getYearLetter
    rw [if_neg (by omega), if_pos (by omega)]
  · intro y h1 h2
    omega
  · intro y mo pn parts store ser st' hy1 hy2 h
    unfold generateSerialNumber at h
    split at h
    · exact absurd h (by simp)
    · rw [getYearLetter_ok y (by omega) hy2] at h
      cases hm : getMonthLetter mo with
      | error e => rw [hm] at h; exact absurd h (by simp)
      | ok ml =>
        rw [hm] at h
        obtain ⟨f, s, _, _, rfl, _⟩ := genPfx_ok_shape _ _ _ _ h
        exact validate_fmt_highYear _ _ _ _ (by omega)
  · intro y mo pn parts store res hy h
    unfold generateSerialNumber at h
    split at h
    · exact absurd h (by simp)
    · rcases hy with hy | hy
      · rw [show getYearLetter y = .error .yearTooSmall from by
          unfold getYearLetter; rw [if_pos (by omega)]] at h
        exact absurd h (by simp)
      · rw [show getYearLetter y = .error .yearTooLarge from by
          unfold getYearLetter; rw [if_neg (by omega), if_pos (by omega)]] at h
        exact absurd h (by simp)

/-- Witness for C10 at concrete years. -/
theorem c10_year_letter_range_witness :
    getYearLetter 2026 = .ok 76 ∧
    getYearLetter 2024 = .error .yearTooSmall ∧
    getYearLetter 2051 = .error .yearTooLarge ∧
    90 < 75 + (2041 - 2025) ∧
    validateSerialFormat (fmtSerial [91, 65] 1 1) = false ∧
    generateSerialNumber 2024 1 "P1" [("P1", true)] []
      ≠ .ok (fmtSerial [75, 65] 1 1, [fmtSerial [75, 65] 1 1]) := by
  obtain ⟨h1, h2, h3, h4, h5, h6⟩ := c10_year_letter_range
  refine ⟨?_, h2 2024 (by omega), h3 2051 (by omega), h4 2041 (by omega) (by omega),
    h5 2041 1 "P1" [("P1", true)] [] (fmtSerial [91, 65] 1 1) [fmtSerial [91, 65] 1 1]
      (by omega) (by omega) (by rfl),
    h6 2024 1 "P1" [("P1", true)] [] (fmtSerial [75, 65] 1 1, [fmtSerial [75, 65] 1 1])
      (Or.inl (by omega))⟩
  have := h1 2026 (by omega) (by omega)
  simpa using this

/-! ### State-machine lemmas -/

theorem list_all_congr {α : Type} (l : List α) (f g : α → Bool)
    (h : ∀ x ∈ l, f x = g x) : l.all f = l.all g := by
  induction l with
  | nil => rfl
  | cons y ys IH =>
    have hhd : f y = g y := h y (List.mem_cons_self y ys)
    have htl : ys.all f = ys.all g :=
      IH (fun z hz => h z (List.mem_cons_of_mem y hz))
    simp only [List.all_cons, hhd, htl]

theorem find?_map_comm {α : Type} (l : List α) (p : α → Bool) (f : α → α)
    (hpf : ∀ x, p (f x) = p x) :
    (l.map (fun x => if p x then f x else x)).find? p = (l.find? p).map f := by
  induction l with
  | nil => rfl
  | cons a t ih =>
    by_cases hpa : p a = true
    · rw [List.map_cons, if_pos hpa, List.find?_cons_of_pos _ (by rw [hpf a]; exact hpa),
        List.find?_cons_of_pos _ hpa]
      rfl
    · rw [List.map_cons, if_neg hpa, List.find?_cons_of_neg _ hpa,
        List.find?_cons_of_neg _ hpa]
      exact ih

theorem find?_mapIf_disjoint {α : Type} (l : List α) (p q : α → Bool) (f : α → α)
    (h1 : ∀ x, q x = true → p x = false)
    (h2 : ∀ x, p (f x) = p x) :
    (l.map (fun x => if q x then f x else x)).find? p = l.find? p := by
  induction l with
  | nil => rfl
  | cons a t ih =>
    by_cases hqa : q a = true
    · rw [List.map_cons, if_pos hqa]
      have hpa := h1 a hqa
      rw [List.find?_cons_of_neg _ (by rw [h2 a, hpa]; simp),
        List.find?_cons_of_neg _ (by rw [hpa]; simp)]
      exact ih
    · rw [List.map_cons, if_neg hqa]
      by_cases hpa : p a = true
      · rw [List.find?_cons_of_pos _ hpa, List.find?_cons_of_pos _ hpa]
      · rw [List.find?_cons_of_neg _ hpa, List.find?_cons_of_neg _ hpa]
        exact ih

theorem findRec_updSerial (st : St) (sid : Nat) (f : SerialRow → SerialRow)
    (a b : Nat) : findRec (updSerial st sid f) a b = findRec st a b := rfl

theorem findRec_updateStatus (st : St) (sid now a b : Nat) :
    findRec (updateSerialStatusSvc st sid now) a b = findRec st a b := rfl

theorem derive_updSerial (st : St) (sid : Nat) (f : SerialRow → SerialRow) (sid' : Nat) :
    deriveSerialStatus (updSerial st sid f) sid' = deriveSerialStatus st sid' := rfl

theorem getOrCreate_found (st : St) (sid opId : Nat) (notes : String) (r : PRec)
    (h : findRec st sid opId = some r) : getOrCreateRec st sid opId notes = (r, st) := by
  unfold getOrCreateRec
  rw [h]

theorem getOrCreate_new (st : St) (sid opId : Nat) (notes : String)
    (h : findRec st sid opId = none) :
    getOrCreateRec st sid opId notes =
      ({ newPRec (freshRid st) sid opId "PENDING" with notes := notes },
       { st with records := st.records ++
           [{ newPRec (freshRid st) sid opId "PENDING" with notes := notes }] }) := by
  unfold getOrCreateRec
  rw [h]

theorem getOrCreate_find (st : St) (sid opId : Nat) (notes : String) :
    findRec (getOrCreateRec st sid opId notes).2 sid opId
      = some (getOrCreateRec st sid opId notes).1 := by
  cases h : findRec st sid opId with
  | some r => rw [getOrCreate_found st sid opId notes r h]; exact h
  | none =>
    rw [getOrCreate_new st sid opId notes h]
    show (st.records ++ [_]).find? _ = _
    rw [List.find?_append]
    unfold findRec at h
    rw [h]
    simp [newPRec, recKey]

theorem getOrCreate_ops (st : St) (sid opId : Nat) (notes : String) :
    (getOrCreateRec st sid opId notes).2.operations = st.operations := by
  cases h : findRec st sid opId with
  | some r => rw [getOrCreate_found st sid opId notes r h]
  | none => rw [getOrCreate_new st sid opId notes h]

/-- Destructor for a successful `process_operation`. -/
theorem processOperation_ok (st : St) (sid : Nat) (op : Oper) (action : String)
    (uid : Nat) (notes : String) (quality : Bool) (now : Nat) (st' : St)
    (h : processOperation st sid op action uid notes quality now = .ok st') :
    ∃ patch,
      validateOperationSequence (getOrCreateRec st sid op.oid notes).2 sid op = true ∧
      actionPatch (getOrCreateRec st sid op.oid notes).1 action uid quality now
        = .ok patch ∧
      st' = updateSerialStatusSvc
        (updRecords (getOrCreateRec st sid op.oid notes).2
          (recKey sid op.oid) (notesPatch notes patch))
        sid now := by
  simp only [processOperation] at h
  split at h
  · exact absurd h (by simp)
  · rename_i hval
    split at h
    · exact absurd h (by simp)
    · rename_i patch heq
      refine ⟨patch, by simpa using hval, heq, ?_⟩
      simp only [Except.ok.injEq] at h
      exact h.symm

/-- Constructor for a successful `process_operation`. -/
theorem processOperation_eq_ok (st : St) (sid : Nat) (op : Oper) (action : String)
    (uid : Nat) (notes : String) (quality : Bool) (now : Nat)
    (patch : PRec → PRec)
    (hval : validateOperationSequence (getOrCreateRec st sid op.oid notes).2 sid op = true)
    (hpatch : actionPatch (getOrCreateRec st sid op.oid notes).1 action uid quality now
      = .ok patch) :
    processOperation st sid op action uid notes quality now
      = .ok (updateSerialStatusSvc
          (updRecords (getOrCreateRec st sid op.oid notes).2
            (recKey sid op.oid) (notesPatch notes patch))
          sid now) := by
  simp only [processOperation, hval, Bool.not_true, Bool.false_eq_true, if_false, hpatch]

/-- A failed sequence check fails the whole call. -/
theorem perr_seq (st : St) (sid : Nat) (op : Oper) (action : String) (uid : Nat)
    (notes : String) (quality : Bool) (now : Nat)
    (hval : validateOperationSequence (getOrCreateRec st sid op.oid notes).2 sid op
      = false) :
    processOperation st sid op action uid notes quality now
      = .error .sequenceViolation := by
  simp only [processOperation, hval, Bool.not_false, if_true]

/-- A failed action check fails the whole call with its error. -/
theorem perr_patch (st : St) (sid : Nat) (op : Oper) (action : String) (uid : Nat)
    (notes : String) (quality : Bool) (now : Nat) (e : PErr)
    (hval : validateOperationSequence (getOrCreateRec st sid op.oid notes).2 sid op
      = true)
    (hpatch : actionPatch (getOrCreateRec st sid op.oid notes).1 action uid quality now
      = .error e) :
    processOperation st sid op action uid notes quality now = .error e := by
  simp only [processOperation, hval, Bool.not_true, Bool.false_eq_true, if_false, hpatch]

theorem actionPatch_start (rec0 : PRec) (uid : Nat) (q : Bool) (now : Nat) :
    actionPatch rec0 "start" uid q now =
      if rec0.status != "PENDING" then .error .alreadyStarted
      else .ok (fun r => { r with status := "IN_PROGRESS", startedAt := some now,
                                  processedBy := some uid }) := rfl

theorem actionPatch_approve (rec0 : PRec) (uid : Nat) (q : Bool) (now : Nat) :
    actionPatch rec0 "approve" uid q now =
      if !(rec0.status == "IN_PROGRESS" || rec0.status == "PENDING") then
        .error .invalidApprove
      else .ok (fun r => { r with status := "APPROVED", completedAt := some now,
                                  processedBy := some uid,
                                  qualityCheckPassed := q }) := rfl

theorem actionPatch_reject (rec0 : PRec) (uid : Nat) (q : Bool) (now : Nat) :
    actionPatch rec0 "reject" uid q now =
      if rec0.status == "APPROVED" then .error .invalidReject
      else .ok (fun r => { r with status := "REJECTED", completedAt := some now,
                                  processedBy := some uid }) := rfl

theorem actionPatch_other (rec0 : PRec) (action : String) (uid : Nat) (q : Bool)
    (now : Nat) (h1 : action ≠ "start") (h2 : action ≠ "approve")
    (h3 : action ≠ "reject") :
    actionPatch rec0 action uid q now = .error .invalidAction := by
  unfold actionPatch
  rw [if_neg (fun hc => h1 (eq_of_beq hc)), if_neg (fun hc => h2 (eq_of_beq hc)),
    if_neg (fun hc => h3 (eq_of_beq hc))]

theorem pcommit_error (st : St) (sid : Nat) (op : Oper) (action : String) (uid : Nat)
    (notes : String) (quality : Bool) (now : Nat) (e : PErr)
    (h : processOperation st sid op action uid notes quality now = .error e) :
    processOperationCommit st sid op action uid notes quality now = (st, some e) := by
  unfold processOperationCommit
  rw [h]

theorem perr_start_err (st : St) (sid : Nat) (op : Oper) (uid : Nat) (notes : String)
    (quality : Bool) (now : Nat)
    (hval : validateOperationSequence (getOrCreateRec st sid op.oid notes).2 sid op = true)
    (hstat : (getOrCreateRec st sid op.oid notes).1.status ≠ "PENDING") :
    processOperation st sid op "start" uid notes quality now
      = .error .alreadyStarted := by
  apply perr_patch st sid op "start" uid notes quality now _ hval
  rw [actionPatch_start, if_pos (bne_iff_ne.mpr hstat)]

theorem perr_approve_err (st : St) (sid : Nat) (op : Oper) (uid : Nat) (notes : String)
    (quality : Bool) (now : Nat)
    (hval : validateOperationSequence (getOrCreateRec st sid op.oid notes).2 sid op = true)
    (h1 : (getOrCreateRec st sid op.oid notes).1.status ≠ "IN_PROGRESS")
    (h2 : (getOrCreateRec st sid op.oid notes).1.status ≠ "PENDING") :
    processOperation st sid op "approve" uid notes quality now
      = .error .invalidApprove := by
  apply perr_patch st sid op "approve" uid notes quality now _ hval
  rw [actionPatch_approve, if_pos (by simp [h1, h2])]

theorem perr_reject_err (st : St) (sid : Nat) (op : Oper) (uid : Nat) (notes : String)
    (quality : Bool) (now : Nat)
    (hval : validateOperationSequence (getOrCreateRec st sid op.oid notes).2 sid op = true)
    (h : (getOrCreateRec st sid op.oid notes).1.status = "APPROVED") :
    processOperation st sid op "reject" uid notes quality now
      = .error .invalidReject := by
  apply perr_patch st sid op "reject" uid notes quality now _ hval
  rw [actionPatch_reject, if_pos (by simp [h])]

theorem perr_other_err (st : St) (sid : Nat) (op : Oper) (action : String) (uid : Nat)
    (notes : String) (quality : Bool) (now : Nat)
    (hval : validateOperationSequence (getOrCreateRec st sid op.oid notes).2 sid op = true)
    (h1 : action ≠ "start") (h2 : action ≠ "approve") (h3 : action ≠ "reject") :
    processOperation st sid op action uid notes quality now
      = .error .invalidAction := by
  apply perr_patch st sid op action uid notes quality now _ hval
  exact actionPatch_other _ action uid quality now h1 h2 h3

theorem findRec_updRecords_same (st : St) (sid opId : Nat) (f : PRec → PRec)
    (hpf : ∀ x, recKey sid opId (f x) = recKey sid opId x) :
    findRec (updRecords st (recKey sid opId) f) sid opId
      = (findRec st sid opId).map f := by
  unfold findRec updRecords
  exact find?_map_comm st.records (recKey sid opId) f hpf

theorem findRec_updRecords_other (st : St) (p : PRec → Bool) (f : PRec → PRec)
    (a b : Nat) (h1 : ∀ x, p x = true → recKey a b x = false)
    (h2 : ∀ x, recKey a b (f x) = recKey a b x) :
    findRec (updRecords st p f) a b = findRec st a b := by
  unfold findRec updRecords
  exact find?_mapIf_disjoint st.records (recKey a b) p f h1 h2

theorem notesPatch_status (notes : String) (patch : PRec → PRec) (x : PRec) :
    (notesPatch notes patch x).status = (patch x).status := by
  unfold notesPatch
  dsimp only
  split <;> rfl

theorem notesPatch_completedAt (notes : String) (patch : PRec → PRec) (x : PRec) :
    (notesPatch notes patch x).completedAt = (patch x).completedAt := by
  unfold notesPatch
  dsimp only
  split <;> rfl

theorem notesPatch_quality (notes : String) (patch : PRec → PRec) (x : PRec) :
    (notesPatch notes patch x).qualityCheckPassed = (patch x).qualityCheckPassed := by
  unfold notesPatch
  dsimp only
  split <;> rfl

theorem notesPatch_processedBy (notes : String) (patch : PRec → PRec) (x : PRec) :
    (notesPatch notes patch x).processedBy = (patch x).processedBy := by
  unfold notesPatch
  dsimp only
  split <;> rfl

theorem notesPatch_sid (notes : String) (patch : PRec → PRec) (x : PRec) :
    (notesPatch notes patch x).sid = (patch x).sid := by
  unfold notesPatch
  dsimp only
  split <;> rfl

theorem notesPatch_opId (notes : String) (patch : PRec → PRec) (x : PRec) :
    (notesPatch notes patch x).opId = (patch x).opId := by
  unfold notesPatch
  dsimp only
  split <;> rfl

/-! ## Claim theorems for the state machine -/

/-- C8 as stated is false: `process_operation`'s approve branch also accepts
a PENDING record (`status not in ['IN_PROGRESS', 'PENDING']` is the only
check); on the concrete state with a single PENDING record, approve
succeeds. -/
theorem c8_counterexample :
    (findRec c8St 1 1).map PRec.status = some "PENDING" ∧
    processOperation c8St 1 op1 "approve" 7 "" true 5 = .ok c8Good := ⟨rfl, rfl⟩

/-- C8 amended: approve succeeds exactly when the sequence check passes and
the record's status is IN_PROGRESS or PENDING; on success the status becomes
APPROVED with the completion timestamp and quality flag stored; when the
status is neither (APPROVED or REJECTED), approve fails with the
invalid-transition error. -/
theorem c8_approve_iff :
    ∀ st sid op uid notes q now,
      ((∃ st', processOperation st sid op "approve" uid notes q now = .ok st') ↔
        (validateOperationSequence (getOrCreateRec st sid op.oid notes).2 sid op = true ∧
          ((getOrCreateRec st sid op.oid notes).1.status = "IN_PROGRESS" ∨
           (getOrCreateRec st sid op.oid notes).1.status = "PENDING"))) ∧
      (∀ st', processOperation st sid op "approve" uid notes q now = .ok st' →
        ∃ r', findRec st' sid op.oid = some r' ∧ r'.status = "APPROVED" ∧
          r'.completedAt = some now ∧ r'.qualityCheckPassed = q ∧
          r'.processedBy = some uid) ∧
      (validateOperationSequence (getOrCreateRec st sid op.oid notes).2 sid op = true →
        (getOrCreateRec st sid op.oid notes).1.status ≠ "IN_PROGRESS" →
        (getOrCreateRec st sid op.oid notes).1.status ≠ "PENDING" →
        processOperation st sid op "approve" uid notes q now
          = .error .invalidApprove) := by
  intro st sid op uid notes q now
  refine ⟨⟨?_, ?_⟩, ?_, perr_approve_err st sid op uid notes q now⟩
  · rintro ⟨st', h⟩
    obtain ⟨patch, hval, hpatch, _⟩ := processOperation_ok st sid op "approve" uid notes
      q now st' h
    rw [actionPatch_approve] at hpatch
    by_cases hc : (!((getOrCreateRec st sid op.oid notes).1.status == "IN_PROGRESS"
        || (getOrCreateRec st sid op.oid notes).1.status == "PENDING")) = true
    · rw [if_pos hc] at hpatch
      exact absurd hpatch (by simp)
    · refine ⟨hval, ?_⟩
      simp only [Bool.not_eq_true, Bool.not_eq_false] at hc
      simpa [or_iff_not_imp_left] using hc
  · rintro ⟨hval, hstat⟩
    refine ⟨_, processOperation_eq_ok st sid op "approve" uid notes q now
      (fun r => { r with status := "APPROVED", completedAt := some now,
                         processedBy := some uid, qualityCheckPassed := q }) hval ?_⟩
    rw [actionPatch_approve, if_neg (by rcases hstat with h | h <;> simp [h])]
  · intro st' h
    obtain ⟨patch, hval, hpatch, hst'⟩ := processOperation_ok st sid op "approve" uid
      notes q now st' h
    rw [actionPatch_approve] at hpatch
    by_cases hc : (!((getOrCreateRec st sid op.oid notes).1.status == "IN_PROGRESS"
        || (getOrCreateRec st sid op.oid notes).1.status == "PENDING")) = true
    · rw [if_pos hc] at hpatch
      exact absurd hpatch (by simp)
    · rw [if_neg hc] at hpatch
      simp only [Except.ok.injEq] at hpatch
      subst hpatch
      subst hst'
      rw [findRec_updateStatus, findRec_updRecords_same _ _ _ _
        (by intro x; unfold notesPatch recKey; dsimp only; split <;> rfl),
        getOrCreate_find]
      simp only [Option.map_some']
      refine ⟨_, rfl, ?_, ?_, ?_, ?_⟩
      · rw [notesPatch_status]
      · rw [notesPatch_completedAt]
      · rw [notesPatch_quality]
      · rw [notesPatch_processedBy]

/-- Witness for the amended C8: approve succeeds on a PENDING record of
sequence position 1 and fails with the invalid-transition error on an
APPROVED record. -/
theorem c8_approve_iff_witness :
    (∃ st', processOperation c8St 1 op1 "approve" 7 "" true 5 = .ok st') ∧
    processOperation c9St 1 op1 "approve" 7 "" true 5 = .error .invalidApprove := by
  constructor
  · exact (c8_approve_iff c8St 1 op1 7 "" true 5).1.mpr ⟨by decide, Or.inr (by decide)⟩
  · exact (c8_approve_iff c9St 1 op1 7 "" true 5).2.2 (by decide) (by decide) (by decide)

/-- C9: whenever the precondition of a `process_operation` transition fails
(sequence check or the per-action status check), the call reports a typed
error, each failure mode maps to its specific error, and the transactional
result keeps the pre-state unchanged: no record is created or modified and
the serial is untouched. -/
theorem c9_error_atomicity :
    (∀ st sid op action uid notes q now,
      processPrecondition st sid op action notes = false →
      ∃ e, processOperation st sid op action uid notes q now = .error e ∧
        processOperationCommit st sid op action uid notes q now = (st, some e)) ∧
    (∀ st sid op action uid notes q now,
      validateOperationSequence (getOrCreateRec st sid op.oid notes).2 sid op = false →
      processOperation st sid op action uid notes q now = .error .sequenceViolation) ∧
    (∀ st sid op uid notes q now,
      validateOperationSequence (getOrCreateRec st sid op.oid notes).2 sid op = true →
      (getOrCreateRec st sid op.oid notes).1.status ≠ "PENDING" →
      processOperation st sid op "start" uid notes q now = .error .alreadyStarted) ∧
    (∀ st sid op uid notes q now,
      validateOperationSequence (getOrCreateRec st sid op.oid notes).2 sid op = true →
      (getOrCreateRec st sid op.oid notes).1.status = "APPROVED" →
      processOperation st sid op "reject" uid notes q now = .error .invalidReject) ∧
    (∀ st sid op action uid notes q now,
      validateOperationSequence (getOrCreateRec st sid op.oid notes).2 sid op = true →
      action ≠ "start" → action ≠ "approve" → action ≠ "reject" →
      processOperation st sid op action uid notes q now = .error .invalidAction) ∧
    (∀ st sid op action uid notes q now e,
      processOperation st sid op action uid notes q now = .error e →
      processOperationCommit st sid op action uid notes q now = (st, some e)) := by
  refine ⟨?_, perr_seq, perr_start_err, perr_reject_err, perr_other_err, pcommit_error⟩
  intro st sid op action uid notes q now hpre
  simp only [processPrecondition, Bool.and_eq_false_iff] at hpre
  by_cases hval : validateOperationSequence (getOrCreateRec st sid op.oid notes).2 sid op
      = true
  · rcases hpre with hpre | hpre
    · exact absurd hval (by simp [hpre])
    · unfold statusAllows at hpre
      split_ifs at hpre with h1 h2 h3
      · have ha : action = "start" := eq_of_beq h1
        subst ha
        have hstat : (getOrCreateRec st sid op.oid notes).1.status ≠ "PENDING" := by
          simpa using hpre
        refine ⟨.alreadyStarted, perr_start_err st sid op uid notes q now hval hstat, ?_⟩
        exact pcommit_error st sid op "start" uid notes q now _
          (perr_start_err st sid op uid notes q now hval hstat)
      · have ha : action = "approve" := eq_of_beq h2
        subst ha
        simp only [Bool.or_eq_false_iff, beq_eq_false_iff_ne] at hpre
        refine ⟨.invalidApprove,
          perr_approve_err st sid op uid notes q now hval hpre.1 hpre.2, ?_⟩
        exact pcommit_error st sid op "approve" uid notes q now _
          (perr_approve_err st sid op uid notes q now hval hpre.1 hpre.2)
      · have ha : action = "reject" := eq_of_beq h3
        subst ha
        have hstat : (getOrCreateRec st sid op.oid notes).1.status = "APPROVED" := by
          simpa using hpre
        refine ⟨.invalidReject, perr_reject_err st sid op uid notes q now hval hstat, ?_⟩
        exact pcommit_error st sid op "reject" uid notes q now _
          (perr_reject_err st sid op uid notes q now hval hstat)
      · have hn1 : action ≠ "start" := fun hc => h1 (by simp [hc])
        have hn2 : action ≠ "approve" := fun hc => h2 (by simp [hc])
        have hn3 : action ≠ "reject" := fun hc => h3 (by simp [hc])
        refine ⟨.invalidAction,
          perr_other_err st sid op action uid notes q now hval hn1 hn2 hn3, ?_⟩
        exact pcommit_error st sid op action uid notes q now _
          (perr_other_err st sid op action uid notes q now hval hn1 hn2 hn3)
  · have hvf : validateOperationSequence (getOrCreateRec st sid op.oid notes).2 sid op
        = false := by
      revert hval
      cases validateOperationSequence (getOrCreateRec st sid op.oid notes).2 sid op <;>
        simp
    refine ⟨.sequenceViolation, perr_seq st sid op action uid notes q now hvf, ?_⟩
    exact pcommit_error st sid op action uid notes q now _
      (perr_seq st sid op action uid notes q now hvf)

/-- Witness for C9: on a record already APPROVED, `start` fails with its
typed error and the committed state is the unchanged pre-state; `reject`
fails with the invalid-transition error. -/
theorem c9_error_atomicity_witness :
    (∃ e, processOperation c9St 1 op1 "start" 7 "" false 5 = .error e ∧
      processOperationCommit c9St 1 op1 "start" 7 "" false 5 = (c9St, some e)) ∧
    processOperation c9St 1 op1 "reject" 7 "" false 5 = .error .invalidReject := by
  obtain ⟨h1, _, _, h4, _, _⟩ := c9_error_atomicity
  exact ⟨h1 c9St 1 op1 "start" 7 "" false 5 (by decide),
    h4 c9St 1 op1 7 "" false 5 (by decide) (by decide)⟩

theorem findRec_stWithDefects (st : St) (dfs : List DefectRow) (a b : Nat) :
    findRec { st with defects := dfs } a b = findRec st a b := rfl

theorem findSerial_stWithDefects (st : St) (dfs : List DefectRow) (sid : Nat) :
    findSerial { st with defects := dfs } sid = findSerial st sid := rfl

theorem findSerial_updRecords (st : St) (p : PRec → Bool) (f : PRec → PRec)
    (sid : Nat) : findSerial (updRecords st p f) sid = findSerial st sid := rfl

theorem findSerial_updSerial (st : St) (sid : Nat) (f : SerialRow → SerialRow)
    (hpf : ∀ x : SerialRow, ((f x).sid == sid) = (x.sid == sid)) :
    findSerial (updSerial st sid f) sid = (findSerial st sid).map f := by
  unfold findSerial updSerial
  exact find?_map_comm st.serials (fun s => s.sid == sid) f hpf

/-- C6 as stated is false of the service-level reject: on an IN_PROGRESS
record, `process_operation`'s reject branch stores REJECTED but creates no
Defect and derives the serial status REJECTED, not DEFECTIVE. -/
theorem c6_counterexample :
    (findRec stOneInProgress 1 1).map PRec.status = some "IN_PROGRESS" ∧
    processOperation stOneInProgress 1 op1 "reject" 7 "flaw" false 5 = .ok c6Bad ∧
    c6Bad.defects = [] ∧
    (findSerial c6Bad 1).map SerialRow.status = some "REJECTED" :=
  ⟨rfl, rfl, rfl, rfl⟩

/-- C6 amended: the view-level reject (`reject_serial_number`) has all the
claimed effects on a target record in a non-terminal state: status REJECTED,
completion timestamp set, reason and defect type stored, an OPEN Defect
created for the serial, and the serial forced to DEFECTIVE.  The
service-level reject stores REJECTED but creates no Defect and sets the
serial to REJECTED instead (counterexample). -/
theorem c6_view_reject :
    ∀ st uid prid sid dt reason now pr tr s0,
      findRecById st prid = some pr → pr.assignedOperator = some uid →
      pr.status = "IN_PROGRESS" →
      findSerial st sid = some s0 →
      findRec st sid pr.opId = some tr →
      (tr.status = "PENDING" ∨ tr.status = "IN_PROGRESS") →
      ∃ st', rejectSerialNumber st uid prid sid dt reason now = .ok st' ∧
        findRec st' sid pr.opId = some { tr with
          status := "REJECTED", completedAt := some now, processedBy := some uid,
          rejectionReason := reason, defectType := dt } ∧
        st'.defects = st.defects ++
          [⟨freshDid st, sid, pr.opId, dt, reason, "OPEN", uid, "", none, none,
            none, none⟩] ∧
        (findSerial st' sid).map SerialRow.status = some "DEFECTIVE" := by
  intro st uid prid sid dt reason now pr tr s0 hpr hassg hstat hser htr _hnont
  have hcond : (!(pr.assignedOperator == some uid && pr.status == "IN_PROGRESS"))
      = false := by
    simp [hassg, hstat]
  have htr3 : ∀ (dfs : List DefectRow) (f : SerialRow → SerialRow),
      findRec (updSerial { st with defects := dfs } sid f) sid pr.opId = some tr := by
    intro dfs f
    rw [findRec_updSerial, findRec_stWithDefects]
    exact htr
  simp only [rejectSerialNumber, hpr, hser, hcond, Bool.false_eq_true, if_false, htr3]
  refine ⟨_, rfl, ?_, rfl, ?_⟩
  · have h1 := findRec_updRecords_same
      (updSerial { st with defects := st.defects ++
          [⟨freshDid st, sid, pr.opId, dt, reason, "OPEN", uid, "", none, none, none,
            none⟩] } sid (fun s => { s with status := "DEFECTIVE" }))
      sid pr.opId
      (fun r => { r with
        status := "REJECTED", completedAt := some now, processedBy := some uid,
        rejectionReason := reason, defectType := dt })
      (fun x => rfl)
    rw [h1, htr3]
    rfl
  · rw [findSerial_updRecords]
    have h2 := findSerial_updSerial
      { st with defects := st.defects ++
          [⟨freshDid st, sid, pr.opId, dt, reason, "OPEN", uid, "", none, none, none,
            none⟩] }
      sid (fun s => { s with status := "DEFECTIVE" }) (fun x => rfl)
    rw [h2, findSerial_stWithDefects, hser]
    rfl

/-- Witness for the amended C6 on the concrete one-record state. -/
theorem c6_view_reject_witness :
    ∃ st', rejectSerialNumber stOneInProgress 7 1 1 "SOLDER" "bad joint" 5
        = .ok st' ∧
      findRec st' 1 1 = some { (⟨1, 1, 1, "IN_PROGRESS", some 7, none, some 0, none,
          some 0, "", false, "", ""⟩ : PRec) with
        status := "REJECTED", completedAt := some 5, processedBy := some 7,
        rejectionReason := "bad joint", defectType := "SOLDER" } ∧
      st'.defects = stOneInProgress.defects ++
        [⟨freshDid stOneInProgress, 1, 1, "SOLDER", "bad joint", "OPEN", 7, "", none,
          none, none, none⟩] ∧
      (findSerial st' 1).map SerialRow.status = some "DEFECTIVE" := by
  exact c6_view_reject stOneInProgress 7 1 1 "SOLDER" "bad joint" 5
    ⟨1, 1, 1, "IN_PROGRESS", some 7, none, some 0, none, some 0, "", false, "", ""⟩
    ⟨1, 1, 1, "IN_PROGRESS", some 7, none, some 0, none, some 0, "", false, "", ""⟩
    ⟨1, "IN_PROCESS", none⟩ rfl rfl rfl rfl rfl (Or.inr rfl)

theorem records_updDefect (st : St) (did : Nat) (f : DefectRow → DefectRow) :
    (updDefect st did f).records = st.records := rfl

theorem findRec_updDefect (st : St) (did : Nat) (f : DefectRow → DefectRow)
    (a b : Nat) : findRec (updDefect st did f) a b = findRec st a b := rfl

/-- C7 as stated is false: when the designated return operation is the one
whose record was REJECTED, `resolve_defect`'s get-or-create finds the
existing record and resets it to PENDING — the original REJECTED record is
altered and no new record is created. -/
theorem c7_counterexample :
    (findRec c7St 1 2).map PRec.status = some "REJECTED" ∧
    resolveDefect c7St 9 1 "resoldered" (some 2) 6 = .ok c7Bad ∧
    (findRec c7Bad 1 2).map PRec.status = some "PENDING" ∧
    c7Bad.records.length = c7St.records.length := ⟨rfl, rfl, rfl, rfl⟩

/-- C7 amended: on repair-return, when no record exists for the designated
return operation, a single new PENDING record is appended and every existing
record — in particular the REJECTED one — is left entirely unchanged; when a
record for the return operation already exists (for instance the rejected
one), that record is reset to PENDING with its operator cleared instead of a
new record being created. -/
theorem c7_repair_return :
    ∀ st uid did notes opId now d role o,
      findDefect st did = some d → userRole st uid = some role →
      (role = "REPAIRER" ∨ role = "ADMIN") →
      findOper st opId = some o →
      (findRec st d.sid opId = none →
        ∃ st', resolveDefect st uid did notes (some opId) now = .ok st' ∧
          st'.records = st.records ++ [newPRec (freshRid st) d.sid opId "PENDING"]) ∧
      (∀ tr, findRec st d.sid opId = some tr →
        ∃ st', resolveDefect st uid did notes (some opId) now = .ok st' ∧
          st'.records.length = st.records.length ∧
          findRec st' d.sid opId = some { tr with
            status := "PENDING", assignedOperator := none }) := by
  intro st uid did notes opId now d role o hd hrole hperm ho
  have hcond : (!(role == "REPAIRER" || role == "ADMIN")
      && !(d.assignedRepairer == some uid)) = false := by
    rcases hperm with h | h <;> simp [h]
  constructor
  · intro hnone
    simp only [resolveDefect, hd, hrole, hcond, Bool.false_eq_true, if_false, ho, hnone]
    exact ⟨_, rfl, rfl⟩
  · intro tr htr
    simp only [resolveDefect, hd, hrole, hcond, Bool.false_eq_true, if_false, ho, htr]
    refine ⟨_, rfl, ?_, ?_⟩
    · show (updDefect (updRecords st _ _) did _).records.length = _
      rw [records_updDefect]
      show (st.records.map _).length = _
      rw [List.length_map]
    · rw [findRec_updDefect]
      have h1 := findRec_updRecords_same st d.sid opId
        (fun r => { r with status := "PENDING", assignedOperator := none })
        (fun x => rfl)
      rw [h1, htr]
      rfl

/-- Witness for the amended C7: returning serial 1 to operation 3 (no
existing record) appends one PENDING record, leaving the REJECTED record of
operation 2 untouched; returning to operation 2 resets that record. -/
theorem c7_repair_return_witness :
    (∃ st', resolveDefect c7St 9 1 "resoldered" (some 3) 6 = .ok st' ∧
      st'.records = c7St.records ++ [newPRec (freshRid c7St) 1 3 "PENDING"]) ∧
    (∃ st', resolveDefect c7St 9 1 "resoldered" (some 2) 6 = .ok st' ∧
      st'.records.length = c7St.records.length ∧
      findRec st' 1 2 = some { (⟨2, 1, 2, "REJECTED", some 7, some 7, some 0, some 2,
          some 0, "", false, "bad joint", "SOLDER"⟩ : PRec) with
        status := "PENDING", assignedOperator := none }) := by
  have h := c7_repair_return c7St 9 1 "resoldered" 2 6
    ⟨1, 1, 2, "SOLDER", "bad joint", "OPEN", 7, "", none, none, some 9, none⟩
    "REPAIRER" op2 rfl rfl (Or.inl rfl) rfl
  have h3 := c7_repair_return c7St 9 1 "resoldered" 3 6
    ⟨1, 1, 2, "SOLDER", "bad joint", "OPEN", 7, "", none, none, some 9, none⟩
    "REPAIRER" op3 rfl rfl (Or.inl rfl) rfl
  exact ⟨h3.1 rfl, h.2 ⟨2, 1, 2, "REJECTED", some 7, some 7, some 0, some 2, some 0,
    "", false, "bad joint", "SOLDER"⟩ rfl⟩

/-- C1 as stated is false: the view-level reject path mutates the record to
REJECTED but stores DEFECTIVE on the serial, while the claimed derivation
(rejected > 0) yields REJECTED — after this record mutation the stored
status differs from the derivation. -/
theorem c1_counterexample :
    rejectSerialNumber stOneInProgress 7 1 1 "SOLDER" "bad joint" 5 = .ok c1Bad ∧
    countRecs c1Bad 1 "REJECTED" > 0 ∧
    (findSerial c1Bad 1).map SerialRow.status = some "DEFECTIVE" ∧
    deriveSerialStatus c1Bad 1 = "REJECTED" := ⟨rfl, by decide, rfl, rfl⟩

/-- C1 amended: after every successful `process_operation` mutation the
stored serial status equals the derivation (REJECTED when a rejected record
exists; COMPLETED with completion timestamp when the approved count equals
the active-operation count; IN_PROCESS when some record is approved; CREATED
otherwise).  Mutation paths outside the service — `reject_serial_number`
forcing DEFECTIVE and `complete_operation`'s own rule — do not maintain this
derivation (counterexample). -/
theorem c1_status_after_process :
    ∀ st sid op action uid notes q now st' s',
      processOperation st sid op action uid notes q now = .ok st' →
      findSerial st' sid = some s' →
      s'.status = deriveSerialStatus st' sid ∧
      (deriveSerialStatus st' sid = "COMPLETED" → s'.completedAt = some now) := by
  intro st sid op action uid notes q now st' s' h hfind
  obtain ⟨patch, hval, hpatch, hst'⟩ := processOperation_ok st sid op action uid notes
    q now st' h
  subst hst'
  generalize hst2 : updRecords (getOrCreateRec st sid op.oid notes).2
    (recKey sid op.oid) (notesPatch notes patch) = st2 at hfind ⊢
  simp only [updateSerialStatusSvc] at hfind ⊢
  have hmap := findSerial_updSerial st2 sid (fun s => { s with
    status := deriveSerialStatus st2 sid,
    completedAt := if deriveSerialStatus st2 sid == "COMPLETED" then some now
      else s.completedAt }) (fun x => rfl)
  rw [hmap] at hfind
  obtain ⟨s2, _, hs2e⟩ := Option.map_eq_some'.mp hfind
  subst hs2e
  rw [derive_updSerial]
  refine ⟨rfl, ?_⟩
  intro hc
  show (if deriveSerialStatus st2 sid == "COMPLETED" then some now
    else s2.completedAt) = some now
  rw [hc]
  rfl

/-- Witness for the amended C1: approving the only active operation stores
COMPLETED with the completion timestamp, matching the derivation. -/
theorem c1_status_after_process_witness :
    (⟨1, "COMPLETED", some 5⟩ : SerialRow).status = deriveSerialStatus c1Good 1 ∧
    (deriveSerialStatus c1Good 1 = "COMPLETED" →
      (⟨1, "COMPLETED", some 5⟩ : SerialRow).completedAt = some 5) := by
  exact c1_status_after_process stOneInProgress 1 op1 "approve" 7 "" true 5 c1Good
    ⟨1, "COMPLETED", some 5⟩ rfl rfl

/-- Exclusivity is preserved by claiming an unassigned record for a target
who holds no IN_PROGRESS record. -/
theorem assignPatch_exclusive (st : St) (prid t now : Nat)
    (hrid : ridInjective st) (hexcl : actorExclusive st)
    (hbusy : (st.records.any fun r => r.assignedOperator == some t
      && r.status == "IN_PROGRESS") = false)
    (st2 : St)
    (hrecs : st2.records = st.records.map (fun r => if ridKey prid r then
      { r with
        assignedOperator := some t, status := "IN_PROGRESS",
        startedAt := some now, assignedAt := some now } else r)) :
    actorExclusive st2 := by
  intro r1 hm1 r2 hm2 hs1 hs2 hsome heq
  rw [hrecs] at hm1 hm2
  obtain ⟨a1, ha1m, ha1e⟩ := List.mem_map.mp hm1
  obtain ⟨a2, ha2m, ha2e⟩ := List.mem_map.mp hm2
  have hbusy' := List.any_eq_false.mp hbusy
  by_cases hk1 : ridKey prid a1 = true <;> by_cases hk2 : ridKey prid a2 = true
  · rw [if_pos hk1] at ha1e
    rw [if_pos hk2] at ha2e
    have ha : a1 = a2 := by
      apply hrid a1 ha1m a2 ha2m
      unfold ridKey at hk1 hk2
      exact (beq_iff_eq.mp hk1).trans (beq_iff_eq.mp hk2).symm
    subst ha
    rw [← ha1e, ← ha2e]
  · rw [if_pos hk1] at ha1e
    rw [if_neg hk2] at ha2e
    exfalso
    apply hbusy' a2 ha2m
    have h1a : r1.assignedOperator = some t := by rw [← ha1e]
    have h2a : r2.assignedOperator = some t := by rw [← heq, h1a]
    subst ha2e
    simp [h2a, hs2]
  · rw [if_neg hk1] at ha1e
    rw [if_pos hk2] at ha2e
    exfalso
    apply hbusy' a1 ha1m
    have h2a : r2.assignedOperator = some t := by rw [← ha2e]
    have h1a : r1.assignedOperator = some t := by rw [heq, h2a]
    subst ha1e
    simp [h1a, hs1]
  · rw [if_neg hk1] at ha1e
    rw [if_neg hk2] at ha2e
    subst ha1e
    subst ha2e
    exact hexcl a1 ha1m a2 ha2m hs1 hs2 hsome heq

/-- C3 as stated is false system-wide: after a reachable sequence of
endpoint calls (two service starts, supervisor releases, a reassignment of
a PENDING record to operator 7, a self-assignment, and a final service
start on the still-assigned PENDING record), operator 7 is the assigned
operator of two IN_PROGRESS records. -/
theorem c3_counterexample :
    ReachFrom c3Init c3S7 ∧ ¬ actorExclusive c3S7 := by
  constructor
  · have h1 : StepTo c3Init c3S1 :=
      StepTo.proc c3Init 1 op1 "start" 7 "" false 0 c3S1 (by decide) rfl
    have h2 : StepTo c3S1 c3S2 := StepTo.reassign c3S1 8 1 none 0 c3S2 rfl
    have h3 : StepTo c3S2 c3S3 :=
      StepTo.proc c3S2 2 op1 "start" 9 "" false 0 c3S3 (by decide) rfl
    have h4 : StepTo c3S3 c3S4 := StepTo.reassign c3S3 8 2 none 0 c3S4 rfl
    have h5 : StepTo c3S4 c3S5 := StepTo.reassign c3S4 8 1 (some 7) 0 c3S5 rfl
    have h6 : StepTo c3S5 c3S6 := StepTo.assign c3S5 7 2 none 0 c3S6 rfl
    have h7 : StepTo c3S6 c3S7 :=
      StepTo.proc c3S6 1 op1 "start" 7 "" false 0 c3S7 (by decide) rfl
    exact ReachFrom.step _ _ (ReachFrom.step _ _ (ReachFrom.step _ _
      (ReachFrom.step _ _ (ReachFrom.step _ _ (ReachFrom.step _ _
        (ReachFrom.step _ _ ReachFrom.refl h1) h2) h3) h4) h5) h6) h7
  · decide

/-- C3 amended: `assign_operation` refuses a target who already holds an
IN_PROGRESS record (ActorBusy, nothing assigned) and preserves the
at-most-one-IN_PROGRESS-record-per-actor invariant; the invariant is not a
system-wide reachable-state invariant, because `process_operation`'s start
branch moves a still-assigned PENDING record to IN_PROGRESS without
re-checking the assigned actor (counterexample). -/
theorem c3_assign_exclusive :
    (∀ st uid prid target now pr t,
      findRecById st prid = some pr → pr.assignedOperator = none →
      targetSel st uid target ((userRole st uid).getD "") = .ok t →
      (st.records.any fun r => r.assignedOperator == some t
        && r.status == "IN_PROGRESS") = true →
      assignOperation st uid prid target now = .error .actorBusy) ∧
    (∀ st uid prid target now st', ridInjective st → actorExclusive st →
      assignOperation st uid prid target now = .ok st' → actorExclusive st') := by
  constructor
  · intro st uid prid target now pr t hpr hass htar hbusy
    simp [assignOperation, hpr, hass, htar, hbusy]
  · intro st uid prid target now st' hrid hexcl h
    simp only [assignOperation] at h
    split at h
    · exact absurd h (by simp)
    · rename_i pr hpr
      by_cases hass : pr.assignedOperator.isSome = true
      · rw [if_pos hass] at h
        exact absurd h (by simp)
      · rw [if_neg hass] at h
        split at h
        · exact absurd h (by simp)
        · rename_i t hts
          by_cases hbusy : (st.records.any fun r => r.assignedOperator == some t
              && r.status == "IN_PROGRESS") = true
          · rw [if_pos hbusy] at h
            exact absurd h (by simp)
          · rw [if_neg hbusy] at h
            simp only [Except.ok.injEq] at h
            subst h
            apply assignPatch_exclusive st prid t now hrid hexcl
              (Bool.eq_false_iff.mpr hbusy)
            split <;> rfl

/-- Witness for the amended C3: assigning the PENDING record of serial 2 to
the busy operator 7 fails with ActorBusy; a clean assignment preserves the
exclusivity invariant. -/
theorem c3_assign_exclusive_witness :
    assignOperation c3WSt 7 2 none 0 = .error .actorBusy ∧
    actorExclusive c3Assigned := by
  obtain ⟨h1, h2⟩ := c3_assign_exclusive
  constructor
  · exact h1 c3WSt 7 2 none 0
      ⟨2, 2, 1, "PENDING", none, none, none, none, none, "", false, "", ""⟩ 7
      rfl rfl rfl (by decide)
  · exact h2 c8St 7 1 none 0 c3Assigned (by decide) (by decide) rfl

theorem getOrCreate_found2 (st : St) (sid opId : Nat) (notes : String) (r : PRec)
    (h : findRec st sid opId = some r) : (getOrCreateRec st sid opId notes).2 = st := by
  rw [getOrCreate_found st sid opId notes r h]

theorem getOrCreate_found1 (st : St) (sid opId : Nat) (notes : String) (r : PRec)
    (h : findRec st sid opId = some r) : (getOrCreateRec st sid opId notes).1 = r := by
  rw [getOrCreate_found st sid opId notes r h]

theorem getOrCreate_new2 (st : St) (sid opId : Nat) (notes : String)
    (h : findRec st sid opId = none) :
    (getOrCreateRec st sid opId notes).2 = { st with records := st.records ++
      [{ newPRec (freshRid st) sid opId "PENDING" with notes := notes }] } := by
  rw [getOrCreate_new st sid opId notes h]

theorem operations_updateStatus (st : St) (sid now : Nat) :
    (updateSerialStatusSvc st sid now).operations = st.operations := rfl

theorem operations_updRecords (st : St) (p : PRec → Bool) (f : PRec → PRec) :
    (updRecords st p f).operations = st.operations := rfl

theorem records_updateStatus (st : St) (sid now : Nat) :
    (updateSerialStatusSvc st sid now).records = st.records := rfl

theorem records_updRecordsEq (st : St) (p : PRec → Bool) (f : PRec → PRec) :
    (updRecords st p f).records = st.records.map (fun r => if p r then f r else r) := rfl

theorem actionPatch_ok_not_approved (rec0 : PRec) (action : String) (uid : Nat)
    (q : Bool) (now : Nat) (patch : PRec → PRec)
    (h : actionPatch rec0 action uid q now = .ok patch) :
    rec0.status ≠ "APPROVED" := by
  unfold actionPatch at h
  by_cases ha : (action == "start") = true
  · rw [if_pos ha] at h
    by_cases hs : (rec0.status != "PENDING") = true
    · rw [if_pos hs] at h
      exact absurd h (by simp)
    · intro hAp
      apply hs
      rw [hAp]
      decide
  · rw [if_neg ha] at h
    by_cases hb : (action == "approve") = true
    · rw [if_pos hb] at h
      by_cases hc : (!(rec0.status == "IN_PROGRESS" || rec0.status == "PENDING")) = true
      · rw [if_pos hc] at h
        exact absurd h (by simp)
      · intro hAp
        apply hc
        rw [hAp]
        decide
    · rw [if_neg hb] at h
      by_cases hd : (action == "reject") = true
      · rw [if_pos hd] at h
        by_cases he : (rec0.status == "APPROVED") = true
        · rw [if_pos he] at h
          exact absurd h (by simp)
        · intro hAp
          apply he
          rw [hAp]
          decide
      · rw [if_neg hd] at h
        exact absurd h (by simp)

theorem actionPatch_ok_key (rec0 : PRec) (action : String) (uid : Nat) (q : Bool)
    (now : Nat) (patch : PRec → PRec)
    (h : actionPatch rec0 action uid q now = .ok patch) :
    ∀ x, (patch x).sid = x.sid ∧ (patch x).opId = x.opId := by
  unfold actionPatch at h
  by_cases ha : (action == "start") = true
  · rw [if_pos ha] at h
    by_cases hs : (rec0.status != "PENDING") = true
    · rw [if_pos hs] at h
      exact absurd h (by simp)
    · rw [if_neg hs] at h
      simp only [Except.ok.injEq] at h
      subst h
      exact fun x => ⟨rfl, rfl⟩
  · rw [if_neg ha] at h
    by_cases hb : (action == "approve") = true
    · rw [if_pos hb] at h
      by_cases hc : (!(rec0.status == "IN_PROGRESS" || rec0.status == "PENDING")) = true
      · rw [if_pos hc] at h
        exact absurd h (by simp)
      · rw [if_neg hc] at h
        simp only [Except.ok.injEq] at h
        subst h
        exact fun x => ⟨rfl, rfl⟩
    · rw [if_neg hb] at h
      by_cases hd : (action == "reject") = true
      · rw [if_pos hd] at h
        by_cases he : (rec0.status == "APPROVED") = true
        · rw [if_pos he] at h
          exact absurd h (by simp)
        · rw [if_neg he] at h
          simp only [Except.ok.injEq] at h
          subst h
          exact fun x => ⟨rfl, rfl⟩
      · rw [if_neg hd] at h
        exact absurd h (by simp)

theorem notesPatch_key (notes : String) (patch : PRec → PRec)
    (hp : ∀ x, (patch x).sid = x.sid ∧ (patch x).opId = x.opId) (a b : Nat) :
    ∀ x, recKey a b (notesPatch notes patch x) = recKey a b x := by
  intro x
  unfold recKey
  rw [notesPatch_sid, notesPatch_opId, (hp x).1, (hp x).2]

theorem findRec_st1_disjoint (st : St) (sid opId : Nat) (notes : String) (a b : Nat)
    (hne : ¬(a = sid ∧ b = opId)) :
    findRec (getOrCreateRec st sid opId notes).2 a b = findRec st a b := by
  cases hf : findRec st sid opId with
  | some r => rw [getOrCreate_found2 st sid opId notes r hf]
  | none =>
    rw [getOrCreate_new2 st sid opId notes hf]
    show (st.records ++ [_]).find? (recKey a b) = st.records.find? (recKey a b)
    rw [List.find?_append]
    have hkF : recKey a b ({ newPRec (freshRid st) sid opId "PENDING" with
        notes := notes }) = false := by
      rw [Bool.eq_false_iff]
      intro hT
      unfold recKey newPRec at hT
      simp only [Bool.and_eq_true, beq_iff_eq] at hT
      exact hne ⟨hT.1.symm, hT.2.symm⟩
    rw [show List.find? (recKey a b) [{ newPRec (freshRid st) sid opId "PENDING" with
        notes := notes }] = none from by
      rw [List.find?_cons_of_neg _ (by simp [hkF])]
      rfl]
    cases st.records.find? (recKey a b) <;> rfl

theorem mem_st1_not_key (st : St) (sid opId : Nat) (notes : String) (rr : PRec)
    (hm : rr ∈ (getOrCreateRec st sid opId notes).2.records)
    (hk : ¬(recKey sid opId rr = true)) : rr ∈ st.records := by
  cases hf : findRec st sid opId with
  | some r =>
    rw [getOrCreate_found2 st sid opId notes r hf] at hm
    exact hm
  | none =>
    rw [getOrCreate_new2 st sid opId notes hf] at hm
    rcases List.mem_append.mp hm with h | h
    · exact h
    · exfalso
      simp only [List.mem_singleton] at h
      subst h
      apply hk
      unfold recKey newPRec
      simp

theorem validate_getOrCreate (st : St) (sid : Nat) (op : Oper) (notes : String)
    (hinj : opsIdInjective st) (hmem : op ∈ st.operations) :
    validateOperationSequence (getOrCreateRec st sid op.oid notes).2 sid op
      = validateOperationSequence st sid op := by
  unfold validateOperationSequence
  rw [getOrCreate_ops]
  apply list_all_congr
  intro o ho
  obtain ⟨homem, hcond⟩ := List.mem_filter.mp ho
  simp only [Bool.and_eq_true, decide_eq_true_eq] at hcond
  have hne : ¬(sid = sid ∧ o.oid = op.oid) := by
    rintro ⟨-, hEq⟩
    have heqop : o = op := hinj o homem op hmem hEq
    rw [heqop] at hcond
    exact absurd hcond.2 (lt_irrefl _)
  rw [findRec_st1_disjoint st sid op.oid notes sid o.oid hne]

theorem processOperation_preserves_seq (st : St) (sid : Nat) (op : Oper)
    (action : String) (uid : Nat) (notes : String) (q : Bool) (now : Nat) (st' : St)
    (hinj : opsIdInjective st) (hmem : op ∈ st.operations)
    (hinv : seqInvariant st)
    (h : processOperation st sid op action uid notes q now = .ok st') :
    seqInvariant st' := by
  obtain ⟨patch, hval, hpatch, hst'⟩ := processOperation_ok st sid op action uid notes
    q now st' h
  have hkeyp := actionPatch_ok_key _ _ _ _ _ _ hpatch
  have hnotap := actionPatch_ok_not_approved _ _ _ _ _ _ hpatch
  unfold validateOperationSequence at hval
  rw [getOrCreate_ops] at hval
  subst hst'
  intro r' hm' hap' opr hoprm hoproid o hom hact hseq
  rw [operations_updateStatus, operations_updRecords, getOrCreate_ops] at hoprm hom
  rw [records_updateStatus, records_updRecordsEq] at hm'
  obtain ⟨rr, hrrm, hrre⟩ := List.mem_map.mp hm'
  by_cases hk : recKey sid op.oid rr = true
  · rw [if_pos hk] at hrre
    have hk' : rr.sid = sid ∧ rr.opId = op.oid := by
      unfold recKey at hk
      simpa only [Bool.and_eq_true, beq_iff_eq] using hk
    have hsid : r'.sid = sid := by
      rw [← hrre, notesPatch_sid, (hkeyp rr).1]
      exact hk'.1
    have hopid : r'.opId = op.oid := by
      rw [← hrre, notesPatch_opId, (hkeyp rr).2]
      exact hk'.2
    have hopreq : opr = op := hinj opr hoprm op hmem (by rw [hoproid, hopid])
    rw [hopreq] at hseq
    have hvo := List.all_eq_true.mp hval o (List.mem_filter.mpr ⟨hom, by
      simp only [Bool.and_eq_true, decide_eq_true_eq]
      exact ⟨hact, hseq⟩⟩)
    have hne : o.oid ≠ op.oid := by
      intro hEq
      have heqop : o = op := hinj o hom op hmem hEq
      rw [heqop] at hseq
      exact absurd hseq (lt_irrefl _)
    rw [hsid, findRec_updateStatus]
    rw [findRec_updRecords_other _ (recKey sid op.oid) (notesPatch notes patch)
      sid o.oid
      (by
        intro x hx
        unfold recKey at hx
        simp only [Bool.and_eq_true, beq_iff_eq] at hx
        rw [Bool.eq_false_iff]
        intro hT
        unfold recKey at hT
        simp only [Bool.and_eq_true, beq_iff_eq] at hT
        exact hne (by rw [← hT.2, hx.2]))
      (notesPatch_key notes patch hkeyp sid o.oid)]
    cases hfr : findRec (getOrCreateRec st sid op.oid notes).2 sid o.oid with
    | none =>
      rw [hfr] at hvo
      exact absurd hvo (by simp)
    | some rlow =>
      rw [hfr] at hvo
      simp only [beq_iff_eq] at hvo
      simp [hvo]
  · rw [if_neg hk] at hrre
    subst hrre
    have hrrSt : rr ∈ st.records := mem_st1_not_key st sid op.oid notes rr hrrm hk
    have hlow := hinv rr hrrSt hap' opr hoprm hoproid o hom hact hseq
    obtain ⟨rlow, hrlow, hrlows⟩ := Option.map_eq_some'.mp hlow
    by_cases hcase : rr.sid = sid ∧ o.oid = op.oid
    · exfalso
      obtain ⟨h1, h2⟩ := hcase
      rw [h1, h2] at hrlow
      apply hnotap
      rw [getOrCreate_found1 st sid op.oid notes rlow hrlow]
      exact hrlows
    · rw [findRec_updateStatus]
      rw [findRec_updRecords_other _ (recKey sid op.oid) (notesPatch notes patch)
        rr.sid o.oid
        (by
          intro x hx
          unfold recKey at hx
          simp only [Bool.and_eq_true, beq_iff_eq] at hx
          rw [Bool.eq_false_iff]
          intro hT
          unfold recKey at hT
          simp only [Bool.and_eq_true, beq_iff_eq] at hT
          exact hcase ⟨by rw [← hT.1, hx.1], by rw [← hT.2, hx.2]⟩)
        (notesPatch_key notes patch hkeyp rr.sid o.oid)]
      rw [findRec_st1_disjoint st sid op.oid notes rr.sid o.oid hcase]
      rw [hrlow]
      simp [hrlows]

/-- C2 as stated is false system-wide: `complete_operation` approves the
chosen unit's record with no sequence validation, so an approve succeeds
(and the claimed invariant breaks) while the active operation at the lower
sequence position is still PENDING. -/
theorem c2_counterexample :
    completeOperation c2St 7 3 1 "" true 5 = .ok c2Bad ∧
    (findRec c2Bad 1 2).map PRec.status = some "APPROVED" ∧
    (findRec c2Bad 1 1).map PRec.status = some "PENDING" ∧
    ¬ seqInvariant c2Bad := ⟨rfl, rfl, rfl, by decide⟩

/-- C2 amended: the service path does enforce the sequence — a successful
`process_operation` implies the sequence check held on the post-get_or_create
state, a failed check yields exactly the SequenceViolation error, that check
is equivalent to reading the pre-state, and `process_operation` steps
preserve the sequence invariant. The `complete_operation` endpoint performs
no such validation, so the invariant is not maintained system-wide (see the
counterexample). -/
theorem c2_sequence_enforcement :
    (∀ st sid op action uid notes q now st',
      processOperation st sid op action uid notes q now = .ok st' →
      validateOperationSequence (getOrCreateRec st sid op.oid notes).2 sid op = true) ∧
    (∀ st sid op action uid notes q now,
      validateOperationSequence (getOrCreateRec st sid op.oid notes).2 sid op = false →
      processOperation st sid op action uid notes q now
        = .error .sequenceViolation) ∧
    (∀ st sid op notes, opsIdInjective st → op ∈ st.operations →
      validateOperationSequence (getOrCreateRec st sid op.oid notes).2 sid op
        = validateOperationSequence st sid op) ∧
    (∀ st sid op action uid notes q now st',
      opsIdInjective st → op ∈ st.operations → seqInvariant st →
      processOperation st sid op action uid notes q now = .ok st' →
      seqInvariant st') := by
  refine ⟨?_, perr_seq, validate_getOrCreate, processOperation_preserves_seq⟩
  intro st sid op action uid notes q now st' h
  obtain ⟨patch, hval, _, _⟩ := processOperation_ok st sid op action uid notes q now
    st' h
  exact hval

/-- Witness for the amended C2 on concrete states: a first-position approve
passes the check; approving position 2 with position 1 still PENDING fails
with the sequence error; the check equals its pre-state reading; and the
invariant is preserved across a successful approve. -/
theorem c2_sequence_enforcement_witness :
    validateOperationSequence (getOrCreateRec c8St 1 op1.oid "").2 1 op1 = true ∧
    processOperation c2St 1 op2 "approve" 7 "" true 5 = .error .sequenceViolation ∧
    validateOperationSequence (getOrCreateRec c2St 1 op2.oid "").2 1 op2
      = validateOperationSequence c2St 1 op2 ∧
    seqInvariant c8Good := by
  obtain ⟨h1, h2, h3, h4⟩ := c2_sequence_enforcement
  exact ⟨h1 c8St 1 op1 "approve" 7 "" true 5 c8Good rfl,
    h2 c2St 1 op2 "approve" 7 "" true 5 (by decide),
    h3 c2St 1 op2 "" (by decide) (by decide),
    h4 c8St 1 op1 "approve" 7 "" true 5 c8Good (by decide) (by decide) (by decide) rfl⟩

end Mfg
